import Mathlib

set_option maxHeartbeats 1000000

/-!
Shallow embedding of the redirect-chain tracker of investblog/redirect-inspector
(src/background/helpers.ts, src/background/classify.ts, src/background/chains.ts,
src/shared/analysis/session-groups.ts), together with theorems settling the
frozen claims about it.

Modelling conventions:
- a JavaScript value that may be `undefined` is an `Option`;
- `noiseReason : string | null | undefined` is `Option (Option String)`
  (outer `none` = `undefined`, `some none` = `null`);
- JS `Map`s are modelled as lookup functions;
- the host URL parser (WHATWG `new URL`) and `Date` rendering/parsing are
  modelled by executable Lean functions described at their definitions;
- field names `from`/`to` are Lean keywords and are written with guillemets.
-/

namespace RedirectInspector

/-! ### JS string / number primitives -/

/-- Auxiliary for substring search: does the pattern occur as a prefix. -/
def charsHasPre : List Char → List Char → Bool
  | [], _ => true
  | _ :: _, [] => false
  | p :: ps, c :: cs => p == c && charsHasPre ps cs

/-- Auxiliary for substring search: does the pattern occur anywhere. -/
def charsContains (pat : List Char) : List Char → Bool
  | [] => pat.isEmpty
  | c :: cs => charsHasPre pat (c :: cs) || charsContains pat cs

/-- Models JS `s.includes(pat)` for a non-empty constant pattern. -/
def jsIncludes (s pat : String) : Bool :=
  charsContains pat.data s.data

/-- ASCII lowercasing (JS `toLowerCase` on the ASCII range). -/
def strLower (s : String) : String :=
  String.mk (s.data.map Char.toLower)

/-- JS `s.startsWith(pre)`. -/
def strStartsWith (s pre : String) : Bool :=
  charsHasPre pre.data s.data

/-- JS `s.endsWith(suf)`. -/
def strEndsWith (s suf : String) : Bool :=
  charsHasPre suf.data.reverse s.data.reverse

/-- Whitespace trimmed from URL input. -/
def isJsSpace (c : Char) : Bool :=
  c == ' ' || c == '\t' || c == '\n' || c == '\r'

/-- JS `array.join(sep)`. -/
def joinSep (sep : String) : List String → String
  | [] => ""
  | [s] => s
  | s :: rest => s ++ sep ++ joinSep sep rest

/-- Models JS string truthiness for a `string | undefined` value. -/
def jsTruthyStrB : Option String → Bool
  | some s => !(s == "")
  | none => false

/-- Models JS `a || b` on `string | undefined` values (falsy = absent or empty). -/
def jsOrStr (a b : Option String) : Option String :=
  match a with
  | some s => if s == "" then b else some s
  | none => b

/-- Models JS `a || undefined` / `a || null` on a `string | null | undefined`
value: keeps `a` only when it is a non-empty string. -/
def jsTruthyOpt : Option String → Option String
  | some s => if s == "" then none else some s
  | none => none

/-- Models JS `u !== undefined ? u : t` (the field-merge step of
`mergeEventDetails`: a defined update field wins, an undefined one keeps the
target value). -/
def jsDefOr {α : Type} (u t : Option α) : Option α :=
  match u with
  | some v => some v
  | none => t

/-- Models `Number.parseInt(s, 10)`: skip leading whitespace, optional sign,
then the longest leading digit run; `none` when there is no digit (NaN). -/
def jsParseInt (s : String) : Option Int :=
  let cs := s.data.dropWhile (fun c => c == ' ' || c == '\t' || c == '\n' || c == '\r')
  let signed : Bool × List Char :=
    match cs with
    | '-' :: rest => (true, rest)
    | '+' :: rest => (false, rest)
    | _ => (false, cs)
  let digits := signed.2.takeWhile Char.isDigit
  if digits.isEmpty then none
  else
    let n : Nat := digits.foldl (fun acc c => acc * 10 + (c.toNat - 48)) 0
    some (if signed.1 then -(n : Int) else (n : Int))

/-- Models `Date(ms).toISOString()` as an injective rendering of the
millisecond timestamp. No claim inspects the concrete format, only that a
rendered timestamp is a string that `jsDateParseMs` parses back. -/
def isoString (ms : Int) : String :=
  "iso:" ++ toString ms

/-- Models `new Date(s).getTime()` restricted to strings produced by
`isoString`: the parsed millisecond value, `none` (NaN) otherwise. -/
def jsDateParseMs (s : String) : Option Int :=
  if strStartsWith s "iso:" then
    match (s.drop 4).data with
    | '-' :: ds =>
      if !ds.isEmpty && ds.all Char.isDigit then
        some (-(ds.foldl (fun acc c => acc * 10 + (c.toNat - 48)) (0 : Nat) : Int))
      else none
    | ds =>
      if !ds.isEmpty && ds.all Char.isDigit then
        some ((ds.foldl (fun acc c => acc * 10 + (c.toNat - 48)) (0 : Nat) : Int))
      else none
  else none

/-! ### Stable sort with a JS comparator

JS `Array.prototype.sort` with a consistent comparator is a stable sort; it is
modelled by insertion sort that inserts each element after every existing
element comparing less-or-equal, which preserves the original order of
elements that compare equal. -/

/-- Insert into a sorted list, after all elements with comparator value ≤ 0. -/
def jsSortInsert {α : Type} (cmp : α → α → Int) (e : α) : List α → List α
  | [] => [e]
  | x :: xs => if cmp x e ≤ 0 then x :: jsSortInsert cmp e xs else e :: x :: xs

/-- Models `array.sort(cmp)` for a consistent comparator (stable). -/
def jsSortBy {α : Type} (cmp : α → α → Int) (l : List α) : List α :=
  l.foldl (fun acc e => jsSortInsert cmp e acc) []

/-! ### URL model

An executable model of the WHATWG URL parser (the host `new URL`) restricted
to what the heuristics read: `protocol`, `hostname`, `host` and `pathname` of
well-formed ASCII URLs. Userinfo is stripped, default ports are dropped from
`host`, schemes and hostnames are lowercased, and clearly malformed inputs
(no scheme, empty or bracketed host for a special scheme, non-numeric port)
fail to parse, modelling the constructor throwing. -/

structure JsURL where
  protocol : String
  hostname : String
  host : String
  pathname : String
deriving DecidableEq, Repr

/-- Schemes the URL standard treats as special (authority-carrying). -/
def specialScheme (scheme : String) : Bool :=
  ["http", "https", "ws", "wss", "ftp", "file"].contains scheme

/-- Default port of a special scheme, omitted from `host`. -/
def defaultPort (scheme : String) : Option String :=
  if scheme == "http" || scheme == "ws" then some "80"
  else if scheme == "https" || scheme == "wss" then some "443"
  else if scheme == "ftp" then some "21"
  else none

/-- Characters that end the authority section. -/
def urlAuthorityStop (c : Char) : Bool :=
  c == '/' || c == '?' || c == '#' || c == '\\'

/-- Characters that may not appear in a hostname. -/
def hostForbiddenChar (c : Char) : Bool :=
  c == ' ' || c == '[' || c == ']' || c == '<' || c == '>' || c == '|' || c == '^' || c == '"'

/-- Parse the port section: empty means no port, digits give the numeric
port (leading zeros dropped), anything else is a parse failure. -/
def parsePort (cs : List Char) : Option (Option String) :=
  if cs.isEmpty then some none
  else if cs.all Char.isDigit then
    let trimmed := cs.dropWhile (fun c => c == '0')
    some (some (if trimmed.isEmpty then "0" else String.mk trimmed))
  else none

/-- Parse an authority (host and optional port) for the given scheme;
returns `hostname` and `host`. -/
def parseAuthority (scheme : String) (authority : List Char) : Option (String × String) :=
  let hostport := (authority.reverse.takeWhile (fun c => c != '@')).reverse
  let hostcs := hostport.takeWhile (fun c => c != ':')
  let portcs :=
    match hostport.dropWhile (fun c => c != ':') with
    | [] => ([] : List Char)
    | _ :: p => p
  if hostcs.isEmpty then none
  else if hostcs.any hostForbiddenChar then none
  else
    match parsePort portcs with
    | none => none
    | some portOpt =>
      let hostname := String.mk (hostcs.map Char.toLower)
      let host :=
        match portOpt with
        | none => hostname
        | some p => if defaultPort scheme == some p then hostname else hostname ++ ":" ++ p
      some (hostname, host)

/-- Models `new URL(url)`: `none` when the constructor would throw. -/
def parseURL (url : String) : Option JsURL :=
  let cs := ((url.data.dropWhile isJsSpace).reverse.dropWhile isJsSpace).reverse
  let scheme := cs.takeWhile (fun c => c != ':')
  match cs.dropWhile (fun c => c != ':') with
  | [] => none
  | _ :: afterColon =>
    match scheme with
    | [] => none
    | c0 :: _ =>
      if !c0.isAlpha then none
      else if !scheme.all (fun c => c.isAlphanum || c == '+' || c == '-' || c == '.') then none
      else
        let schemeL := String.mk (scheme.map Char.toLower)
        if specialScheme schemeL then
          let afterSlashes := afterColon.dropWhile (fun c => c == '/' || c == '\\')
          let authority := afterSlashes.takeWhile (fun c => !urlAuthorityStop c)
          let restPath := afterSlashes.dropWhile (fun c => !urlAuthorityStop c)
          match parseAuthority schemeL authority with
          | none => none
          | some (hostname, host) =>
            let pathname :=
              match restPath with
              | '/' :: _ => String.mk (restPath.takeWhile (fun c => c != '?' && c != '#'))
              | _ => "/"
            some { protocol := schemeL ++ ":", hostname := hostname, host := host, pathname := pathname }
        else
          match afterColon with
          | '/' :: '/' :: rest2 =>
            let authority := rest2.takeWhile (fun c => !urlAuthorityStop c)
            let restPath := rest2.dropWhile (fun c => !urlAuthorityStop c)
            match parseAuthority schemeL authority with
            | none => none
            | some (hostname, host) =>
              let pathname :=
                match restPath with
                | '/' :: _ => String.mk (restPath.takeWhile (fun c => c != '?' && c != '#'))
                | _ => ""
              some { protocol := schemeL ++ ":", hostname := hostname, host := host, pathname := pathname }
          | _ =>
            some { protocol := schemeL ++ ":", hostname := "", host := "",
                   pathname := String.mk (afterColon.takeWhile (fun c => c != '?' && c != '#')) }

/-! ### helpers.ts: constants -/

def REDIRECT_LOG_KEY : String := "redirectLog"
def MAX_RECORDS : Nat := 50
def ACTIVE_CHAIN_TIMEOUT_MS : Int := 5 * 60 * 1000
def CLIENT_REDIRECT_DEFAULT_AWAIT_MS : Int := 10 * 1000
def CLIENT_REDIRECT_EXTENDED_AWAIT_MS : Int := 15 * 1000
def CHAIN_FINALIZATION_DELAY_MS : Int := 250

def TRACKING_KEYWORDS : List String :=
  ["pixel", "track", "collect", "analytics", "impression", "beacon", "measure",
   "telemetry", "conversion", "retarget", "syndication"]

def PIXEL_EXTENSIONS : List String :=
  [".gif", ".png", ".jpg", ".jpeg", ".webp", ".bmp", ".svg"]

def MEDIA_EXTENSIONS : List String :=
  [".mp4", ".webm", ".mkv", ".mov", ".m4v", ".m4a", ".mp3", ".aac", ".ogg",
   ".oga", ".ogv", ".wav", ".flac", ".m3u8", ".mpd", ".ts", ".m2ts"]

def MEDIA_CONTENT_TYPE_PREFIXES : List String := ["video/", "audio/"]

def MEDIA_CONTENT_TYPE_INCLUDES : List String :=
  ["application/vnd.apple.mpegurl", "application/x-mpegurl", "application/dash+xml"]

/-- The resource-type set eligible to await a client redirect (a JS `Set`,
modelled as a list used through membership). -/
def CLIENT_REDIRECT_AWAIT_TYPES : List String := ["main_frame", "sub_frame"]

def NON_NAVIGABLE_EXTENSIONS : List String := [".js", ".mjs"]

def LIKELY_BROWSER_PROTOCOLS : List String := ["http:", "https:"]

def NOISY_URL_PATTERNS : List String :=
  ["/cdn-cgi/challenge-platform/", "/cdn-cgi/challenge/", "/cdn-cgi/bm/",
   "/cdn-cgi/trace", "/cdn-cgi/zaraz/", "/cdn-cgi/scripts/", "/pagead/",
   "/ads/ga-audiences", "/_vercel/insights"]

def NOISY_HOST_SUFFIXES : List String :=
  ["challenges.cloudflare.com",
   "googletagmanager.com", "google-analytics.com", "doubleclick.net",
   "googlesyndication.com", "googleadservices.com", "adservice.google.com",
   "bat.bing.com", "clarity.ms",
   "mc.yandex.ru", "mc.yandex.com", "an.yandex.ru", "adfox.ru",
   "top-fwz1.mail.ru", "top.mail.ru",
   "connect.facebook.net", "facebook.com", "tiktok.com", "ads.linkedin.com",
   "snap.licdn.com", "ct.pinterest.com", "analytics.twitter.com", "pixel.wp.com",
   "criteo.com", "criteo.net", "adnxs.com", "amazon-adsystem.com",
   "taboola.com", "outbrain.com",
   "hotjar.com", "mouseflow.com", "fullstory.com",
   "analytics.yahoo.com", "scorecardresearch.com", "quantserve.com",
   "nr-data.net", "radar.cedexis.com",
   "cdn.cookielaw.org", "consent.cookiebot.com"]

/-! ### helpers.ts: functions -/

/-- Response header entry (`chrome.webRequest.HttpHeader`). -/
structure HttpHeader where
  name : String
  value : Option String
deriving DecidableEq, Repr

/-- helpers.ts isNoisyUrl: path matches a noisy pattern or the hostname is a
noisy host or one of its subdomains; `false` on missing url or parse failure. -/
def isNoisyUrl (url : Option String) : Bool :=
  match url with
  | none => false
  | some u =>
    if u == "" then false
    else
      match parseURL u with
      | none => false
      | some p =>
        NOISY_URL_PATTERNS.any (fun pat => jsIncludes p.pathname pat) ||
        NOISY_HOST_SUFFIXES.any (fun host => p.hostname == host || strEndsWith p.hostname ("." ++ host))

/-- helpers.ts getHeaderValue: first header whose lowercased name matches. -/
def getHeaderValue (headers : Option (List HttpHeader)) (headerName : String) : Option String :=
  match headers with
  | none => none
  | some hs =>
    if headerName == "" then none
    else
      let target := strLower headerName
      match hs.find? (fun h => strLower h.name == target) with
      | some h => h.value
      | none => none

/-- helpers.ts parseContentLength: non-negative parsed integer or `none`. -/
def parseContentLength (value : Option String) : Option Int :=
  match jsParseInt (value.getD "") with
  | some n => if 0 ≤ n then some n else none
  | none => none

/-- helpers.ts hasTrackingKeyword: case-insensitive substring match. -/
def hasTrackingKeyword (url : Option String) : Bool :=
  match url with
  | none => false
  | some u =>
    if u == "" then false
    else TRACKING_KEYWORDS.any (fun keyword => jsIncludes (strLower u) keyword)

/-- helpers.ts hasExtension: lowercased pathname ends with one of the
extensions; on URL parse failure, substring fallback on the raw string. -/
def hasExtension (url : Option String) (extensions : List String) : Bool :=
  match url with
  | none => false
  | some u =>
    if u == "" then false
    else
      match parseURL u with
      | some p => extensions.any (fun ext => strEndsWith (strLower p.pathname) ext)
      | none => extensions.any (fun ext => jsIncludes (strLower u) ext)

def hasPixelExtension (url : Option String) : Bool :=
  hasExtension url PIXEL_EXTENSIONS

def hasMediaExtension (url : Option String) : Bool :=
  hasExtension url MEDIA_EXTENSIONS

/-- helpers.ts isMediaContentType. -/
def isMediaContentType (contentType : Option String) : Bool :=
  match contentType with
  | none => false
  | some s =>
    let lower := strLower s
    MEDIA_CONTENT_TYPE_PREFIXES.any (fun pre => strStartsWith lower pre) ||
    MEDIA_CONTENT_TYPE_INCLUDES.any (fun needle => jsIncludes lower needle)

/-- helpers.ts isLikelyBrowserUrl: http/https scheme and a pathname that does
not end in a non-navigable script extension. -/
def isLikelyBrowserUrl (url : Option String) : Bool :=
  match url with
  | none => false
  | some u =>
    if u == "" then false
    else
      match parseURL u with
      | none => false
      | some parsed =>
        let pathname := strLower parsed.pathname
        if !LIKELY_BROWSER_PROTOCOLS.contains parsed.protocol then false
        else if NON_NAVIGABLE_EXTENSIONS.any (fun ext => strEndsWith pathname ext) then false
        else true

/-- helpers.ts formatTimestamp: ISO rendering of the given millisecond value,
falling back to the current time (threaded explicitly as `now`). -/
def formatTimestamp (now : Int) (timestampMs : Option Int) : String :=
  match timestampMs with
  | some ms => isoString ms
  | none => isoString now

/-- helpers.ts normalizeForComparison at `string | undefined` values:
`undefined`/`null` become the empty string. -/
def normalizeForComparison (value : Option String) : String :=
  match value with
  | none => ""
  | some s => s

/-- helpers.ts sameHost: both URLs parse and have the same `host`. -/
def sameHost (a b : String) : Bool :=
  match parseURL a, parseURL b with
  | some x, some y => x.host == y.host
  | _, _ => false

/-! ### Data model (src/shared/types/redirect.ts) -/

/-- Status code stored on a hop event: a JS number or a string sentinel such
as "HSTS" or "JS" (`statusCode: number | string`). -/
inductive StatusCode where
  | num (n : Int)
  | str (s : String)
deriving DecidableEq, Repr

/-- helpers.ts normalizeForComparison at `number | string | undefined` values
(the same source function, at the type of `statusCode`). -/
def normalizeForComparisonStatus (value : Option StatusCode) : String :=
  match value with
  | none => ""
  | some (.num n) => toString n
  | some (.str s) => s

/-- One observed or inferred hop (`RedirectEvent`). Fields a runtime object
may leave `undefined` are `Option`. -/
structure RedirectEvent where
  timestamp : Option String
  timestampMs : Option Int
  «from» : Option String
  «to» : Option String
  statusCode : Option StatusCode
  method : Option String
  ip : Option String
  type : Option String
  noise : Option Bool
  noiseReason : Option (Option String)
deriving DecidableEq, Repr

inductive Classification where
  | normal
  | likelyTracking
  | likelyMedia
deriving DecidableEq, Repr

/-- Persisted record of a finalized chain (`RedirectRecord`). -/
structure RedirectRecord where
  id : String
  requestId : Option String
  tabId : Int
  initiator : Option String
  initiatedAt : String
  completedAt : Option String
  initialUrl : Option String
  finalUrl : Option String
  finalStatus : Option Int
  error : Option String
  events : List RedirectEvent
  noiseEvents : Option (List RedirectEvent)
  classification : Option Classification
  classificationReason : Option String
  contentType : Option String
  contentLength : Option Int
  pending : Option Bool
  awaitingClientRedirect : Option Bool
  awaitingClientRedirectDeadline : Option Int
deriving DecidableEq, Repr

structure ClassificationResult where
  classification : Classification
  classificationReason : Option String
  contentType : Option String
  contentLength : Option Int
deriving DecidableEq, Repr

/-- Completion metadata captured on a chain (`ChainCompletionDetails`). -/
structure ChainCompletionDetails where
  requestId : Option String
  tabId : Option Int
  url : Option String
  type : Option String
  statusCode : Option Int
  timeStamp : Option Int
  responseHeaders : Option (List HttpHeader)
deriving DecidableEq, Repr

structure ChainFinalDetails where
  details : ChainCompletionDetails
  errorMessage : Option String
deriving DecidableEq, Repr

structure PreparedEvents where
  normalizedEvents : List RedirectEvent
  normalizedNoiseEvents : List RedirectEvent
  allEventsNoisy : Bool
  firstEvent : Option RedirectEvent
  lastEvent : Option RedirectEvent
deriving DecidableEq, Repr

/-! ### classify.ts -/

/-- classify.ts classifyEventLikeHop: returns a copy of the event with
`noise`/`noiseReason` assigned from the noisy-URL heuristics. -/
def classifyEventLikeHop (event : RedirectEvent) : RedirectEvent :=
  let e := { event with noise := some false, noiseReason := some none }
  if jsTruthyStrB e.«to» && isNoisyUrl e.«to» then
    if jsIncludes (e.«to».getD "") "/cdn-cgi/" || jsIncludes (e.«to».getD "") "challenges.cloudflare.com" then
      { e with noise := some true, noiseReason := some (some "cloudflare-challenge") }
    else
      { e with noise := some true, noiseReason := some (some "analytics") }
  else e

/-- classify.ts eventsDescribeSameHop: same from/to/status/method/type after
string normalization; false when either event is missing. -/
def eventsDescribeSameHop (a b : Option RedirectEvent) : Bool :=
  match a, b with
  | some a, some b =>
    normalizeForComparison a.«from» == normalizeForComparison b.«from» &&
    normalizeForComparison a.«to» == normalizeForComparison b.«to» &&
    normalizeForComparisonStatus a.statusCode == normalizeForComparisonStatus b.statusCode &&
    normalizeForComparison a.method == normalizeForComparison b.method &&
    normalizeForComparison a.type == normalizeForComparison b.type
  | _, _ => false

/-- classify.ts mergeEventDetails: start from the target and overwrite each
field that is defined on the update. -/
def mergeEventDetails (target update : RedirectEvent) : RedirectEvent :=
  { timestamp := jsDefOr update.timestamp target.timestamp
    timestampMs := jsDefOr update.timestampMs target.timestampMs
    «from» := jsDefOr update.«from» target.«from»
    «to» := jsDefOr update.«to» target.«to»
    statusCode := jsDefOr update.statusCode target.statusCode
    method := jsDefOr update.method target.method
    ip := jsDefOr update.ip target.ip
    type := jsDefOr update.type target.type
    noise := jsDefOr update.noise target.noise
    noiseReason := jsDefOr update.noiseReason target.noiseReason }

/-- Body of normalizeEventForRecord on a present event. -/
def normalizeEventBody (now : Int) (e : RedirectEvent) : RedirectEvent :=
  let timestamp :=
    match e.timestampMs with
    | some ms => formatTimestamp now (some ms)
    | none =>
      match e.timestamp with
      | some s => s
      | none => formatTimestamp now none
  { timestamp := some timestamp
    timestampMs := none
    «from» := e.«from»
    «to» := e.«to»
    statusCode := e.statusCode
    method := e.method
    ip := e.ip
    type := e.type
    noise := some (e.noise == some true)
    noiseReason :=
      match e.noiseReason with
      | some (some s) => if s == "" then none else some (some s)
      | _ => none }

/-- classify.ts normalizeEventForRecord: canonical persisted shape of an
event (explicit timestamp string, boolean noise, truthy-or-absent reason;
`timestampMs` is not carried over); `none` on a missing event. -/
def normalizeEventForRecord (now : Int) (event : Option RedirectEvent) : Option RedirectEvent :=
  match event with
  | none => none
  | some e => some (normalizeEventBody now e)

/-- Comparator of prepareEventsForRecord: ascending `timestampMs`, events
lacking a timestamp sorting last (+infinity), equal keys compare 0. -/
def eventTimeCmp (a b : RedirectEvent) : Int :=
  match a.timestampMs, b.timestampMs with
  | none, none => 0
  | none, some _ => 1
  | some _, none => -1
  | some x, some y => x - y

/-- classify.ts prepareEventsForRecord: sort by timestamp, split into
noisy/non-noisy, keep the non-noisy side unless every event is noisy, and
normalize each kept event. -/
def prepareEventsForRecord (now : Int) (events : List RedirectEvent) : PreparedEvents :=
  let sortedEvents := jsSortBy eventTimeCmp events
  let noisyEvents := sortedEvents.filter (fun e => e.noise == some true)
  let nonNoisyEvents := sortedEvents.filter (fun e => !(e.noise == some true))
  let eventsForRecord := if nonNoisyEvents.length > 0 then nonNoisyEvents else sortedEvents
  let normalizedEvents := eventsForRecord.filterMap (fun e => normalizeEventForRecord now (some e))
  let normalizedNoiseEvents := noisyEvents.filterMap (fun e => normalizeEventForRecord now (some e))
  { normalizedEvents := normalizedEvents
    normalizedNoiseEvents := normalizedNoiseEvents
    allEventsNoisy := normalizedEvents.length > 0 && normalizedEvents.all (fun e => e.noise == some true)
    firstEvent := eventsForRecord.head?
    lastEvent := eventsForRecord.getLast? }

/-- Candidate-push guard: the singleton list holding a URL when it is
truthy, empty otherwise. -/
def truthyList (u : Option String) : List String :=
  match jsTruthyOpt u with
  | some v => [v]
  | none => []

/-- classify.ts resolveFinalUrl, candidate-list construction: completion URL
of a navigational completion, most recent navigational hop target, last hop
target, last committed URL of the tab, raw completion URL, initial URL. -/
def resolveFinalUrlCandidates (record : RedirectRecord)
    (completionDetails : ChainCompletionDetails)
    (tabLastCommittedUrl : Int → Option String) : List String :=
  let completionType := completionDetails.type
  let completionUrl := completionDetails.url
  let isNavigationCompletion := completionType == some "main_frame" || completionType == some "sub_frame"
  let c1 := if isNavigationCompletion then truthyList completionUrl else []
  let cEvents :=
    if record.events.length > 0 then
      let navigationalEvent := record.events.reverse.find? (fun e =>
        jsTruthyStrB e.«to» &&
        (e.type == some "client-redirect" || e.type == some "main_frame" || e.method == some "CLIENT"))
      let n1 :=
        match navigationalEvent with
        | some e => truthyList e.«to»
        | none => []
      let n2 :=
        match record.events.getLast? with
        | some e => truthyList e.«to»
        | none => []
      n1 ++ n2
    else []
  let cCommitted :=
    if 0 ≤ record.tabId then truthyList (tabLastCommittedUrl record.tabId) else []
  let cCompletion := truthyList completionUrl
  let cInitial := truthyList record.initialUrl
  c1 ++ cEvents ++ cCommitted ++ cCompletion ++ cInitial

/-- Models `candidates.filter((c, i) => c && candidates.indexOf(c) === i)`:
drop empty strings and keep the first occurrence of each candidate. -/
def jsDedup (l : List String) : List String :=
  l.foldl (fun acc c => if c != "" && !acc.contains c then acc ++ [c] else acc) []

/-- classify.ts resolveFinalUrl: first deduplicated candidate that is a
navigable browser URL and not noisy, else the first navigable one, else the
first candidate, else fallbacks on the raw sources. -/
def resolveFinalUrl (record : RedirectRecord) (completionDetails : ChainCompletionDetails)
    (tabLastCommittedUrl : Int → Option String) : Option String :=
  let uniqueCandidates := jsDedup (resolveFinalUrlCandidates record completionDetails tabLastCommittedUrl)
  match uniqueCandidates.find? (fun c => isLikelyBrowserUrl (some c) && !isNoisyUrl (some c)) with
  | some preferred => some preferred
  | none =>
    match uniqueCandidates.find? (fun c => isLikelyBrowserUrl (some c)) with
    | some fallbackBrowser => some fallbackBrowser
    | none =>
      match uniqueCandidates with
      | c :: _ => some c
      | [] =>
        match (if 0 ≤ record.tabId then jsTruthyOpt (tabLastCommittedUrl record.tabId) else none) with
        | some committedUrl => some committedUrl
        | none =>
          match jsTruthyOpt record.initialUrl with
          | some u => some u
          | none => jsTruthyOpt completionDetails.url

/-- Media-signal reasons gathered by classifyRecord (its first block). -/
def classifyMediaReasons (record : RedirectRecord) (completionDetails : ChainCompletionDetails) :
    List String :=
  let events := record.events
  let finalUrl := record.finalUrl.getD ""
  let normalizedContentType :=
    match getHeaderValue completionDetails.responseHeaders "content-type" with
    | some s => strLower s
    | none => ""
  (if events.any (fun e => e.type == some "media") then ["media request in chain"] else []) ++
  (if (match completionDetails.type with
       | some t => strLower t == "media"
       | none => false) then ["final resource is media"] else []) ++
  (if hasMediaExtension (some finalUrl) then ["media file extension"] else []) ++
  (if isMediaContentType (some normalizedContentType) then ["media content-type"] else [])

/-- Tracking heuristics gathered by classifyRecord (its second block). -/
def classifyTrackingHeuristics (record : RedirectRecord)
    (completionDetails : ChainCompletionDetails) : List String :=
  let events := record.events
  let finalUrl := record.finalUrl.getD ""
  let normalizedContentType :=
    match getHeaderValue completionDetails.responseHeaders "content-type" with
    | some s => strLower s
    | none => ""
  let contentLength := parseContentLength (getHeaderValue completionDetails.responseHeaders "content-length")
  (if events.length ≤ 1 then ["single hop chain"] else []) ++
  (if events.length > 0 && events.all (fun e => e.type == some "image") then
    ["all hops are image requests"] else []) ++
  (if hasPixelExtension (some finalUrl) then ["image file extension"] else []) ++
  (if hasTrackingKeyword (some finalUrl) then ["tracking keyword in URL"] else []) ++
  (if isNoisyUrl (some finalUrl) then ["noisy url (cf/analytics)"] else []) ++
  (if completionDetails.type == some "image" then ["final resource is an image"] else []) ++
  (if jsIncludes normalizedContentType "image/" then ["image content-type"] else []) ++
  (if (match contentLength with
       | some n => decide (n ≤ 2048)
       | none => false) then ["tiny response size"] else [])

/-- classify.ts classifyRecord: media signals first (short-circuit to
likely-media), otherwise count tracking heuristics and require at least two
(the reason lists are the named definitions above). -/
def classifyRecord (record : RedirectRecord) (completionDetails : ChainCompletionDetails) :
    ClassificationResult :=
  let contentTypeHeader := getHeaderValue completionDetails.responseHeaders "content-type"
  let contentType := contentTypeHeader
  let contentLength := parseContentLength (getHeaderValue completionDetails.responseHeaders "content-length")
  let mediaReasons := classifyMediaReasons record completionDetails
  if mediaReasons.length > 0 then
    { classification := .likelyMedia
      classificationReason := some (joinSep "; " mediaReasons)
      contentType := contentType
      contentLength := contentLength }
  else
    let heuristics := classifyTrackingHeuristics record completionDetails
    if 2 ≤ heuristics.length then
      { classification := .likelyTracking
        classificationReason := some (joinSep "; " heuristics)
        contentType := contentType
        contentLength := contentLength }
    else
      { classification := .normal
        classificationReason := none
        contentType := contentType
        contentLength := contentLength }

/-! ### chains.ts: state and the chain lifecycle

Timers are host handles; a timer field is modelled as a `Bool` recording
whether a callback is currently scheduled (the callback bodies themselves are
separate steps, e.g. `finalizeChainRecord` is the body of the finalize
timer). Badge calls are external side effects with no modelled state, except
where they clear fields of the chain (`stopAwaitingClientRedirectCountdown`).
JS `Map`s are lookup functions; object mutation of a chain fetched from
`chainsById` under key k is modelled by writing the updated value back at k. -/

/-- Entry of the `pendingClientRedirects` map. -/
structure PendingClientRedirect where
  chainId : String
  fromUrl : Option String
  startedAt : Int
deriving DecidableEq, Repr

/-- In-memory chain being assembled (`Chain`). -/
structure Chain where
  id : String
  requestIds : List String
  tabId : Int
  initiator : Option String
  initiatedAt : String
  events : List RedirectEvent
  initialUrl : Option String
  pendingFinalDetails : Option ChainFinalDetails
  finalizeTimer : Bool
  awaitingClientRedirect : Bool
  awaitingClientRedirectTimer : Bool
  awaitingClientRedirectDeadline : Option Int
  awaitingClientRedirectInterval : Bool
  awaitingBadgeToggle : Bool
  awaitingBadgeFinalColor : Option String
  cleanupTimer : Bool
  pendingRedirectTargetKeys : List String
deriving DecidableEq, Repr

/-- The mutable module-level maps of chains.ts plus the persisted log
(`browser.storage.local` under the redirect-log key). -/
structure BgState where
  chainsById : String → Option Chain
  requestToChain : String → Option String
  tabChains : Int → Option String
  tabLastCommittedUrl : Int → Option String
  pendingClientRedirects : Int → Option PendingClientRedirect
  pendingRedirectTargets : String → List String
  redirectLog : List RedirectRecord

/-- Write an updated chain value back at the map key it was fetched from
(models in-place mutation of the object stored there). -/
def writeChainAt (st : BgState) (key : String) (c : Chain) : BgState :=
  { st with chainsById := fun k => if k == key then some c else st.chainsById k }

/-- chains.ts appendEventToChain on the `events` list of a chain: merge into
the last stored event when it describes the same hop, otherwise push. -/
def appendEventToChain (events : List RedirectEvent) (event : RedirectEvent) : List RedirectEvent :=
  match events.getLast? with
  | some last =>
    if eventsDescribeSameHop (some last) (some event) then
      events.dropLast ++ [mergeEventDetails last event]
    else events ++ [event]
  | none => events ++ [event]

/-- Does a pending-client-redirect entry point at the given chain id. -/
def pendingEntryPointsAt (entry : Option PendingClientRedirect) (chainId : String) : Bool :=
  match entry with
  | some pending => pending.chainId == chainId
  | none => false

/-- chains.ts getChainByRequestId, returning the chain-map key as well. -/
def getChainByRequestId (st : BgState) (requestId : String) : Option (String × Chain) :=
  match st.requestToChain requestId with
  | none => none
  | some chainId =>
    match st.chainsById chainId with
    | none => none
    | some chain => some (chainId, chain)

/-- chains.ts cleanupChain: clear every timer, deregister every index entry
(pending redirect-target queues, request-id map, tab map, pending client
redirect), and remove the chain from the chain map. The field mutations on
the removed chain object itself are unobservable after removal. -/
def cleanupChain (st : BgState) (chain : Chain) : BgState :=
  { st with
    pendingRedirectTargets := fun k =>
      if chain.pendingRedirectTargetKeys.contains k then
        (st.pendingRedirectTargets k).filter (fun chainId => chainId != chain.id)
      else st.pendingRedirectTargets k
    requestToChain := fun requestId =>
      if chain.requestIds.contains requestId then none else st.requestToChain requestId
    tabChains := fun t =>
      if decide (0 ≤ chain.tabId) && t == chain.tabId && st.tabChains chain.tabId == some chain.id then none
      else st.tabChains t
    pendingClientRedirects := fun t =>
      if decide (0 ≤ chain.tabId) && t == chain.tabId &&
          pendingEntryPointsAt (st.pendingClientRedirects chain.tabId) chain.id then none
      else st.pendingClientRedirects t
    chainsById := fun k => if k == chain.id then none else st.chainsById k }

/-- chains.ts finalizeChainRecord (the body of the finalize timer): no-op if
the chain id is gone; otherwise build the record from the prepared events,
resolve the final URL, classify, persist unless everything was noise, and
tear the chain down. -/
def finalizeChainRecordBody (now : Int) (st : BgState) (chainId : String) (chain : Chain) :
    BgState :=
  match chain.pendingFinalDetails with
  | none => cleanupChain st chain
  | some completion =>
      let details := completion.details
      let errorMessage := completion.errorMessage
      let completedAt := formatTimestamp now details.timeStamp
      let preparedEvents := prepareEventsForRecord now chain.events
      let normalizedEvents := preparedEvents.normalizedEvents
      let record0 : RedirectRecord :=
        { id := chain.id
          requestId := details.requestId
          tabId := chain.tabId
          initiator := chain.initiator
          initiatedAt := chain.initiatedAt
          completedAt := some completedAt
          initialUrl := jsOrStr chain.initialUrl
            (match normalizedEvents.head? with
             | some e => e.«from»
             | none => none)
          finalUrl := none
          finalStatus := details.statusCode
          error := jsTruthyOpt errorMessage
          events := normalizedEvents
          noiseEvents :=
            if preparedEvents.normalizedNoiseEvents.length > 0 then
              some preparedEvents.normalizedNoiseEvents
            else none
          classification := none
          classificationReason := none
          contentType := none
          contentLength := none
          pending := none
          awaitingClientRedirect := none
          awaitingClientRedirectDeadline := none }
      let record1 := { record0 with
        finalUrl := resolveFinalUrl record0 details st.tabLastCommittedUrl }
      let classification := classifyRecord record1 details
      let record2 := { record1 with
        classification := some classification.classification
        classificationReason := jsTruthyOpt classification.classificationReason
        contentType := jsTruthyOpt classification.contentType
        contentLength := classification.contentLength }
      let chain2 := { chain with pendingFinalDetails := none }
      let st2 := writeChainAt st chainId chain2
      let st3 :=
        if preparedEvents.allEventsNoisy then st2
        else { st2 with redirectLog := (record2 :: st2.redirectLog).take MAX_RECORDS }
      cleanupChain st3 chain2

/-- chains.ts finalizeChainRecord (the body of the finalize timer): no-op if
the chain id is gone, otherwise the record-building body above. -/
def finalizeChainRecord (now : Int) (st : BgState) (chainId : String) : BgState :=
  match st.chainsById chainId with
  | none => st
  | some chain => finalizeChainRecordBody now st chainId chain

/-- chains.ts scheduleChainFinalization: no-op while awaiting a client
redirect; otherwise replace the finalize timer (delay 250ms, so the
immediate branch is never taken, but it is transcribed). -/
def scheduleChainFinalization (now : Int) (st : BgState) (key : String) (chain : Chain) : BgState :=
  if chain.awaitingClientRedirect then st
  else
    let chain1 := { chain with finalizeTimer := false }
    let delay := max CHAIN_FINALIZATION_DELAY_MS 0
    if delay == 0 then finalizeChainRecord now (writeChainAt st key chain1) chain.id
    else writeChainAt st key { chain1 with finalizeTimer := true }

/-- chains.ts cancelAwaitingClientRedirect: clear the awaiting flag, its
timer, the countdown fields and the badge color, and drop the per-tab
pending-client-redirect entry when it points at this chain. -/
def cancelAwaitingClientRedirect (st : BgState) (chain : Chain) : BgState × Chain :=
  if !chain.awaitingClientRedirect then (st, chain)
  else
    let chain2 := { chain with
      awaitingClientRedirect := false
      awaitingClientRedirectTimer := false
      awaitingClientRedirectInterval := false
      awaitingClientRedirectDeadline := none
      awaitingBadgeToggle := false
      awaitingBadgeFinalColor := none }
    let st1 :=
      if decide (0 ≤ chain.tabId) &&
          pendingEntryPointsAt (st.pendingClientRedirects chain.tabId) chain.id then
        { st with pendingClientRedirects := fun t =>
            if t == chain.tabId then none else st.pendingClientRedirects t }
      else st
    (st1, chain2)

/-- chains.ts startAwaitingClientRedirect: cancel any previous wait, mark the
chain awaiting, register the per-tab pending entry, set the deadline and the
countdown/expiry timers. The expiry callback is a separate step. -/
def startAwaitingClientRedirect (now : Int) (st : BgState) (key : String) (chain : Chain)
    (fromUrl : Option String) (timeoutMs : Int) : BgState :=
  let cancelled := cancelAwaitingClientRedirect st chain
  let st1 := cancelled.1
  let chain2 := { cancelled.2 with awaitingClientRedirect := true }
  let hasBadgeTarget := decide (0 ≤ chain.tabId)
  let pendingEntry : PendingClientRedirect :=
    { chainId := chain.id
      fromUrl := jsOrStr fromUrl
        (match chain.pendingFinalDetails with
         | some completion => completion.details.url
         | none => none)
      startedAt := now }
  let st2 :=
    if hasBadgeTarget then
      { st1 with pendingClientRedirects := fun t =>
          if t == chain.tabId then some pendingEntry
          else st1.pendingClientRedirects t }
    else st1
  let waitMs := if 0 < timeoutMs then timeoutMs else CLIENT_REDIRECT_DEFAULT_AWAIT_MS
  let chain3 := { chain2 with
    awaitingClientRedirectDeadline := some (now + waitMs)
    awaitingBadgeToggle := true
    awaitingClientRedirectInterval := hasBadgeTarget
    awaitingClientRedirectTimer := true }
  writeChainAt st2 key chain3

/-- Completion or error details delivered by the webRequest API
(`chrome.webRequest.WebResponseCacheDetails`, with `statusCode` absent on the
error-event path). -/
structure WebResponseDetails where
  requestId : String
  tabId : Int
  url : String
  type : String
  statusCode : Option Int
  timeStamp : Option Int
  responseHeaders : Option (List HttpHeader)
deriving DecidableEq, Repr

/-- chains.ts finalizeChain: the completion/error handler. Drops chains with
no events; while awaiting a client redirect ignores any completion whose
resource type is truthy and not main_frame; otherwise records the completion
details and either finalizes on a short delay (noisy URL or non-awaitable
type) or enters the awaiting-client-redirect state. -/
def finalizeChainBody (now : Int) (st : BgState) (details : WebResponseDetails)
    (errorMessage : Option String) (key : String) (chain : Chain) : BgState :=
  if chain.events.length == 0 then cleanupChain st chain
    else if chain.awaitingClientRedirect && !(details.type == "") && !(details.type == "main_frame") then st
    else
      let chain1 := { chain with cleanupTimer := true }
      let finalDetails : ChainFinalDetails :=
        { details :=
            { requestId := some details.requestId
              tabId := some details.tabId
              url := some details.url
              type := some details.type
              statusCode := details.statusCode
              timeStamp := details.timeStamp
              responseHeaders := details.responseHeaders }
          errorMessage := jsTruthyOpt errorMessage }
      let chain2 := { chain1 with pendingFinalDetails := some finalDetails }
      let st2 := writeChainAt st key chain2
      if isNoisyUrl (some details.url) then scheduleChainFinalization now st2 key chain2
      else
        let canAwaitClientRedirect :=
          decide (0 ≤ details.tabId) &&
          (details.type == "" || CLIENT_REDIRECT_AWAIT_TYPES.contains details.type)
        let contentType := (getHeaderValue details.responseHeaders "content-type").getD ""
        let isHtmlPage :=
          jsIncludes (strLower contentType) "text/html" &&
          details.statusCode == some 200 &&
          (details.type == "main_frame" || details.type == "sub_frame")
        if canAwaitClientRedirect || isHtmlPage then
          let awaitTimeout :=
            if isHtmlPage then CLIENT_REDIRECT_EXTENDED_AWAIT_MS
            else CLIENT_REDIRECT_DEFAULT_AWAIT_MS
          startAwaitingClientRedirect now st2 key chain2 (some details.url) awaitTimeout
        else scheduleChainFinalization now st2 key chain2

/-- chains.ts finalizeChain: the completion/error handler dispatch. -/
def finalizeChain (now : Int) (st : BgState) (details : WebResponseDetails)
    (errorMessage : Option String) : BgState :=
  match getChainByRequestId st details.requestId with
  | none => st
  | some (key, chain) => finalizeChainBody now st details errorMessage key chain

/-- Redirect event details delivered by the webRequest API
(`chrome.webRequest.WebRedirectionResponseDetails`). -/
structure WebRedirectDetails where
  requestId : String
  tabId : Int
  url : String
  redirectUrl : Option String
  statusCode : Int
  method : String
  ip : Option String
  type : String
  timeStamp : Option Int
deriving DecidableEq, Repr

/-- chains.ts recordRedirectEvent, hop-construction part (the classified hop
event that is appended to the chain): a zero status code on a transition from
an http:// URL to an https:// redirect target is stored as the synthetic
"HSTS" status, otherwise the raw status code is stored. -/
def recordRedirectEventHop (now : Int) (details : WebRedirectDetails) : RedirectEvent :=
  let isInternalRedirect :=
    details.statusCode == 0 &&
    strStartsWith details.url "http://" &&
    (match details.redirectUrl with
     | some r => strStartsWith r "https://"
     | none => false)
  classifyEventLikeHop
    { timestamp := some (formatTimestamp now details.timeStamp)
      timestampMs := details.timeStamp
      «from» := some details.url
      «to» := details.redirectUrl
      statusCode := some (if isInternalRedirect then .str "HSTS" else .num details.statusCode)
      method := some details.method
      ip := details.ip
      type := some details.type
      noise := none
      noiseReason := none }

/-! ### session-groups.ts -/

def NOISE_CLASSIFICATIONS : List Classification := [.likelyTracking, .likelyMedia]

def SESSION_WINDOW_MS : Int := 60000

/-- session-groups.ts recordTimestamp: parsed initiation time, 0 when the
field is falsy or does not parse to a finite number. -/
def recordTimestamp (record : RedirectRecord) : Int :=
  if record.initiatedAt == "" then 0
  else
    match jsDateParseMs record.initiatedAt with
    | some t => t
    | none => 0

/-- session-groups.ts isNoise: classification is likely-tracking or
likely-media. -/
def isNoise (record : RedirectRecord) : Bool :=
  match record.classification with
  | some c => NOISE_CLASSIFICATIONS.contains c
  | none => false

def hopCount (record : RedirectRecord) : Nat :=
  record.events.length

/-- session-groups.ts primaryComparator: non-noise before noise, then more
hops first, then earliest initiation first. -/
def primaryComparator (a b : RedirectRecord) : Int :=
  let aNoise : Int := if isNoise a then 1 else 0
  let bNoise : Int := if isNoise b then 1 else 0
  if aNoise != bNoise then aNoise - bNoise
  else
    let aHops : Int := hopCount a
    let bHops : Int := hopCount b
    if aHops != bHops then bHops - aHops
    else recordTimestamp a - recordTimestamp b

/-- session-groups.ts selectPrimary: head of the stably sorted copy. -/
def selectPrimary (records : List RedirectRecord) : Option RedirectRecord :=
  (jsSortBy primaryComparator records).head?

/-- session-groups.ts getHost: URL host or the empty string. -/
def getHost (url : Option String) : String :=
  match url with
  | none => ""
  | some u =>
    match parseURL u with
    | some p => p.host
    | none => ""

/-- Add the host of a URL to a host set (a JS `Set` modelled as a
first-occurrence list). -/
def addChainHost (hosts : List String) (url : Option String) : List String :=
  let h := getHost url
  if h != "" && !hosts.contains h then hosts ++ [h] else hosts

/-- session-groups.ts getChainHosts: every host appearing in the initial,
final and initiator URLs and in the events. -/
def getChainHosts (record : RedirectRecord) : List String :=
  let hosts := addChainHost (addChainHost (addChainHost [] record.initialUrl) record.finalUrl) record.initiator
  record.events.foldl (fun hosts ev => addChainHost (addChainHost hosts ev.«from») ev.«to») hosts

/-- session-groups.ts hasHostOverlap. -/
def hasHostOverlap (a b : List String) : Bool :=
  a.any (fun h => b.contains h)

/-- Derived session group (`SessionGroup`). -/
structure SessionGroup where
  tabId : Int
  primary : RedirectRecord
  satellites : List RedirectRecord
deriving DecidableEq, Repr

/-- session-groups.ts partitionByAffinity: pick the primary, split the rest
by host overlap with it, recurse on the unrelated remainder. The JS loop
skips the selected primary by object identity; by stability of the sort the
selected object is the first occurrence of its value, so it is removed with
erase. The two bracketed fallback branches are unreachable (a non-empty list
has a head after sorting, and the primary is one of the records). -/
def partitionByAffinity (records : List RedirectRecord) (tabId : Int) : List SessionGroup :=
  match records with
  | [] => []
  | [r] => [{ tabId := tabId, primary := r, satellites := [] }]
  | r0 :: r1 :: rest0 =>
    let rs := r0 :: r1 :: rest0
    match selectPrimary rs with
    | none => []
    | some primary =>
      if hmem : primary ∈ rs then
        let rest := rs.erase primary
        let primaryHosts := getChainHosts primary
        let related := rest.filter (fun r => hasHostOverlap primaryHosts (getChainHosts r))
        let unrelated := rest.filter (fun r => !hasHostOverlap primaryHosts (getChainHosts r))
        { tabId := tabId, primary := primary, satellites := related } ::
          partitionByAffinity unrelated tabId
      else [{ tabId := tabId, primary := primary, satellites := [] }]
termination_by records.length
decreasing_by
  refine lt_of_le_of_lt (List.length_filter_le _ _) ?_
  rw [List.length_erase_of_mem hmem]
  simp [rs]

/-- Time-window clustering step of buildSessionGroups: consecutive records at
most the session window apart stay in one cluster. -/
def clusterGo (last : RedirectRecord) (currentCluster : List RedirectRecord) :
    List RedirectRecord → List (List RedirectRecord)
  | [] => [currentCluster]
  | r :: rest =>
    if recordTimestamp r - recordTimestamp last ≤ SESSION_WINDOW_MS then
      clusterGo r (currentCluster ++ [r]) rest
    else currentCluster :: clusterGo r [r] rest

/-- Time-window clustering of a sorted bucket. -/
def clusterByWindow : List RedirectRecord → List (List RedirectRecord)
  | [] => []
  | r :: rest => clusterGo r [r] rest

/-- Insertion into the tab-id bucket map (a JS `Map`, modelled as an
association list in key-insertion order). -/
def bucketsAdd (buckets : List (Int × List RedirectRecord)) (tabId : Int) (r : RedirectRecord) :
    List (Int × List RedirectRecord) :=
  if buckets.any (fun b => b.1 == tabId) then
    buckets.map (fun b => if b.1 == tabId then (b.1, b.2 ++ [r]) else b)
  else buckets ++ [(tabId, [r])]

/-- Final ordering comparator of buildSessionGroups: pending groups first
(newest first), then completed groups newest-primary first. -/
def groupSortCmp (a b : SessionGroup) : Int :=
  let aPending : Int := if a.primary.pending == some true then 1 else 0
  let bPending : Int := if b.primary.pending == some true then 1 else 0
  if aPending != bPending then bPending - aPending
  else recordTimestamp b.primary - recordTimestamp a.primary

/-- Scan step of buildSessionGroups: a pending or no-tab record becomes a
singleton group, every other record goes to its tab bucket. -/
def sessionScanStep (acc : List SessionGroup × List (Int × List RedirectRecord))
    (record : RedirectRecord) : List SessionGroup × List (Int × List RedirectRecord) :=
  if record.pending == some true then
    (acc.1 ++ [{ tabId := record.tabId, primary := record, satellites := [] }], acc.2)
  else if record.tabId == -1 || record.tabId == 0 then
    (acc.1 ++ [{ tabId := record.tabId, primary := record, satellites := [] }], acc.2)
  else (acc.1, bucketsAdd acc.2 record.tabId record)

/-- First pass of buildSessionGroups over the records. -/
def sessionScan (records : List RedirectRecord) :
    List SessionGroup × List (Int × List RedirectRecord) :=
  records.foldl sessionScanStep ([], [])

/-- Groups produced from one tab bucket: sort by initiation time, cluster by
the session window, partition each cluster by domain affinity. -/
def bucketGroups (bucket : Int × List RedirectRecord) : List SessionGroup :=
  (clusterByWindow (jsSortBy (fun a b => recordTimestamp a - recordTimestamp b) bucket.2)).foldl
    (fun acc2 cluster => acc2 ++ partitionByAffinity cluster bucket.1) []

/-- All completed groups, in bucket order (the JS code appends each bucket's
groups to one shared accumulator, which is the same list). -/
def buildCompletedGroups (buckets : List (Int × List RedirectRecord)) : List SessionGroup :=
  buckets.foldl (fun acc bucket => acc ++ bucketGroups bucket) []

/-- session-groups.ts buildSessionGroups: pending and no-tab records become
singleton groups; the rest are bucketed by tab, clustered by the 60s window,
partitioned by domain affinity; noise groups and noise satellites are hidden
when showingNoise is false; groups are sorted pending-first, newest-first. -/
def buildSessionGroups (records : List RedirectRecord) (showingNoise : Bool) : List SessionGroup :=
  let scanned := sessionScan records
  let singletons := scanned.1
  let completedGroups := buildCompletedGroups scanned.2
  let groups :=
    if showingNoise then singletons ++ completedGroups
    else
      (singletons.filter fun g => !isNoise g.primary) ++
      (completedGroups.filterMap fun g =>
        if isNoise g.primary then none
        else some { tabId := g.tabId, primary := g.primary,
                    satellites := g.satellites.filter fun r => !isNoise r })
  jsSortBy groupSortCmp groups

/-! ### Claim-side definitions and concrete inputs -/

/-- Claim-side predicate (C6 wording): the two URLs parse and have the same
hostname and the same path. -/
def samePathAndHost (a b : String) : Bool :=
  match parseURL a, parseURL b with
  | some x, some y => x.hostname == y.hostname && x.pathname == y.pathname
  | _, _ => false

/-- Claim-side predicate (C2 wording): some media signal fires — a media hop,
a media completion type, a media file extension on the final URL, or a media
content-type header. -/
def classifyMediaSignal (record : RedirectRecord) (completionDetails : ChainCompletionDetails) : Bool :=
  record.events.any (fun e => e.type == some "media") ||
  (match completionDetails.type with
   | some t => strLower t == "media"
   | none => false) ||
  hasMediaExtension (some (record.finalUrl.getD "")) ||
  isMediaContentType (some
    (match getHeaderValue completionDetails.responseHeaders "content-type" with
     | some s => strLower s
     | none => ""))

/-- Claim-side count (C2 wording): how many of the eight tracking heuristics
fire. -/
def trackingHeuristicCount (record : RedirectRecord) (completionDetails : ChainCompletionDetails) : Nat :=
  let finalUrl := record.finalUrl.getD ""
  let normalizedContentType :=
    match getHeaderValue completionDetails.responseHeaders "content-type" with
    | some s => strLower s
    | none => ""
  let contentLength := parseContentLength (getHeaderValue completionDetails.responseHeaders "content-length")
  (decide (record.events.length ≤ 1)).toNat +
  (record.events.length > 0 && record.events.all (fun e => e.type == some "image")).toNat +
  (hasPixelExtension (some finalUrl)).toNat +
  (hasTrackingKeyword (some finalUrl)).toNat +
  (isNoisyUrl (some finalUrl)).toNat +
  (completionDetails.type == some "image").toNat +
  (jsIncludes normalizedContentType "image/").toNat +
  (match contentLength with
   | some n => decide (n ≤ 2048)
   | none => false).toNat

/-- A plain hop event used by the C1 scenarios. -/
def cexHopA : RedirectEvent :=
  { timestamp := none, timestampMs := some 1, «from» := some "https://a.example/",
    «to» := some "https://b.example/", statusCode := some (.num 301), method := some "GET",
    ip := none, type := some "main_frame", noise := none, noiseReason := none }

/-- A hop describing a different transition, appended between the duplicates. -/
def cexHopC : RedirectEvent :=
  { cexHopA with «to» := some "https://c.example/", statusCode := some (.num 302), timestampMs := some 2 }

/-- A later observation of the same transition as cexHopA (same five key
fields, different payload). -/
def cexHopB : RedirectEvent :=
  { cexHopA with ip := some "1.2.3.4", timestampMs := some 3 }

/-- Redirect details with a zero status on an http to https transition whose
host and path both change (C6 counterexample input). -/
def cexRedirectDetails : WebRedirectDetails :=
  { requestId := "r1", tabId := 1, url := "http://a.example/p",
    redirectUrl := some "https://b.example/q", statusCode := 0, method := "GET",
    ip := none, type := "main_frame", timeStamp := some 1 }

/-- Spec-worded selection rule (C7): the first deduplicated candidate that is
a navigable browser URL and not noisy, else the first that is merely
navigable, else the first candidate at all, else null. -/
def resolveFinalUrlSpec (uniqueCandidates : List String) : Option String :=
  match uniqueCandidates.find? (fun c => isLikelyBrowserUrl (some c) && !isNoisyUrl (some c)) with
  | some preferred => some preferred
  | none =>
    match uniqueCandidates.find? (fun c => isLikelyBrowserUrl (some c)) with
    | some fallbackBrowser => some fallbackBrowser
    | none => uniqueCandidates.head?

/-- Claim-side predicate (C7 wording): the candidate parses as a URL and its
path does not end in a non-navigable script extension. -/
def candidatePathIsNonScript (c : String) : Bool :=
  match parseURL c with
  | some p => !(NON_NAVIGABLE_EXTENSIONS.any (fun ext => strEndsWith (strLower p.pathname) ext))
  | none => false

/-- Hop ending on a script URL (C7 counterexample input). -/
def cexJsEvent : RedirectEvent :=
  { timestamp := none, timestampMs := none, «from» := some "https://x.com/",
    «to» := some "https://x.com/a.js", statusCode := some (.num 302), method := some "GET",
    ip := none, type := some "main_frame", noise := none, noiseReason := none }

/-- Record whose only candidate URLs are a script URL and an ftp URL (C7
counterexample input). -/
def cexJsRecord : RedirectRecord :=
  { id := "cex", requestId := none, tabId := -1, initiator := none, initiatedAt := "",
    completedAt := none, initialUrl := none, finalUrl := none, finalStatus := none,
    error := none, events := [cexJsEvent], noiseEvents := none, classification := none,
    classificationReason := none, contentType := none, contentLength := none,
    pending := none, awaitingClientRedirect := none, awaitingClientRedirectDeadline := none }

/-- Non-navigational completion on an ftp URL (C7 counterexample input). -/
def cexJsCompletion : ChainCompletionDetails :=
  { requestId := none, tabId := none, url := some "ftp://files.example/a.txt",
    type := some "image", statusCode := none, timeStamp := none, responseHeaders := none }

/-- Navigational completion on a plain https page (C7 witness input). -/
def w7Completion : ChainCompletionDetails :=
  { requestId := none, tabId := none, url := some "https://ok.example/page",
    type := some "main_frame", statusCode := some 200, timeStamp := none, responseHeaders := none }

/-- Record with no events (C7 witness input). -/
def w7Record : RedirectRecord :=
  { cexJsRecord with events := [] }

/-- Minimal chain value used by the C4 witness. -/
def w4Chain : Chain :=
  { id := "c1", requestIds := [], tabId := -1, initiator := none, initiatedAt := "",
    events := [], initialUrl := none, pendingFinalDetails := none, finalizeTimer := false,
    awaitingClientRedirect := false, awaitingClientRedirectTimer := false,
    awaitingClientRedirectDeadline := none, awaitingClientRedirectInterval := false,
    awaitingBadgeToggle := false, awaitingBadgeFinalColor := none, cleanupTimer := false,
    pendingRedirectTargetKeys := [] }

/-- State holding exactly the chain c1 (C4 witness input). -/
def w4State : BgState :=
  { chainsById := fun k => if k == "c1" then some w4Chain else none
    requestToChain := fun _ => none
    tabChains := fun _ => none
    tabLastCommittedUrl := fun _ => none
    pendingClientRedirects := fun _ => none
    pendingRedirectTargets := fun _ => []
    redirectLog := [] }

/-- Chain awaiting a client redirect with one stored hop (C5 witness input). -/
def w5Chain : Chain :=
  { w4Chain with id := "c5", awaitingClientRedirect := true, events := [cexHopA] }

/-- State mapping request req5 to chain c5 (C5 witness input). -/
def w5State : BgState :=
  { chainsById := fun k => if k == "c5" then some w5Chain else none
    requestToChain := fun r => if r == "req5" then some "c5" else none
    tabChains := fun _ => none
    tabLastCommittedUrl := fun _ => none
    pendingClientRedirects := fun _ => none
    pendingRedirectTargets := fun _ => []
    redirectLog := [] }

/-- Low-priority (image) completion arriving while c5 awaits a client
redirect (C5 witness input). -/
def w5Details : WebResponseDetails :=
  { requestId := "req5", tabId := 7, url := "https://ok.example/ping.gif", type := "image",
    statusCode := some 200, timeStamp := some 5, responseHeaders := none }

/-- Completed record on tab 5 initiated at t=0 (C8 witness input). -/
def w8RecA : RedirectRecord :=
  { cexJsRecord with
    id := "w8a", tabId := 5, initiatedAt := isoString 0,
    initialUrl := some "https://example.com/a", events := [] }

/-- Completed record on tab 5 initiated 30s later on the same host (C8
witness input). -/
def w8RecB : RedirectRecord :=
  { cexJsRecord with
    id := "w8b", tabId := 5, initiatedAt := isoString 30000,
    initialUrl := some "https://example.com/b", events := [] }

/-- Pending record carrying a noise classification (C8 counterexample
input). -/
def cexNoisePendingRecord : RedirectRecord :=
  { cexJsRecord with
    id := "cex8", tabId := 5, pending := some true,
    classification := some .likelyTracking, initiatedAt := isoString 0, events := [] }

/-! ### Shared lemmas -/

theorem jsSortInsert_perm {α : Type} (cmp : α → α → Int) (e : α) (l : List α) :
    (jsSortInsert cmp e l).Perm (e :: l) := by
  induction l with
  | nil => simp [jsSortInsert]
  | cons x xs ih =>
    simp only [jsSortInsert]
    split
    · exact (ih.cons x).trans (List.Perm.swap e x xs)
    · exact List.Perm.refl _

theorem jsSortBy_foldl_perm {α : Type} (cmp : α → α → Int) (l acc : List α) :
    (l.foldl (fun acc e => jsSortInsert cmp e acc) acc).Perm (acc ++ l) := by
  induction l generalizing acc with
  | nil => simp
  | cons x xs ih =>
    simp only [List.foldl_cons]
    refine (ih (jsSortInsert cmp x acc)).trans ?_
    refine (((jsSortInsert_perm cmp x acc).append_right xs).trans ?_)
    exact List.perm_middle.symm

theorem jsSortBy_perm {α : Type} (cmp : α → α → Int) (l : List α) :
    (jsSortBy cmp l).Perm l := by
  simpa using jsSortBy_foldl_perm cmp l []

theorem mem_jsSortBy {α : Type} {cmp : α → α → Int} {l : List α} {a : α} :
    a ∈ jsSortBy cmp l ↔ a ∈ l :=
  (jsSortBy_perm cmp l).mem_iff

theorem jsSortInsert_of_all_le {α : Type} (cmp : α → α → Int) (e : α) {l : List α}
    (h : ∀ x ∈ l, cmp x e ≤ 0) : jsSortInsert cmp e l = l ++ [e] := by
  induction l with
  | nil => rfl
  | cons x xs ih =>
    simp only [jsSortInsert]
    rw [if_pos (h x (by simp)), ih (fun y hy => h y (by simp [hy]))]
    rfl

theorem jsSortBy_of_all_zero {α : Type} (cmp : α → α → Int) (l : List α)
    (h : ∀ x ∈ l, ∀ y ∈ l, cmp x y = 0) : jsSortBy cmp l = l := by
  suffices haux : ∀ (m acc : List α), (∀ x ∈ m, ∀ y ∈ m, cmp x y = 0) →
      (∀ a ∈ acc, ∀ y ∈ m, cmp a y ≤ 0) →
      (m.foldl (fun acc e => jsSortInsert cmp e acc) acc) = acc ++ m by
    simpa using haux l [] h (by simp)
  intro m
  induction m with
  | nil => intro acc _ _; simp
  | cons x xs ih =>
    intro acc hm hacc
    simp only [List.foldl_cons]
    rw [jsSortInsert_of_all_le cmp x (fun a ha => hacc a ha x (by simp))]
    rw [ih (acc ++ [x])
      (fun a ha b hb => hm a (by simp [ha]) b (by simp [hb]))
      (fun a ha y hy => by
        rcases List.mem_append.mp ha with h1 | h1
        · exact hacc a h1 y (by simp [hy])
        · simp only [List.mem_singleton] at h1
          subst h1
          exact le_of_eq (hm a (by simp) y (by simp [hy])))]
    simp

theorem eventsDescribeSameHop_iff (a b : RedirectEvent) :
    eventsDescribeSameHop (some a) (some b) = true ↔
      normalizeForComparison a.«from» = normalizeForComparison b.«from» ∧
      normalizeForComparison a.«to» = normalizeForComparison b.«to» ∧
      normalizeForComparisonStatus a.statusCode = normalizeForComparisonStatus b.statusCode ∧
      normalizeForComparison a.method = normalizeForComparison b.method ∧
      normalizeForComparison a.type = normalizeForComparison b.type := by
  simp only [eventsDescribeSameHop, Bool.and_eq_true, beq_iff_eq]
  tauto

theorem normalizeForComparison_jsDefOr (t u : Option String)
    (h : normalizeForComparison t = normalizeForComparison u) :
    normalizeForComparison (jsDefOr u t) = normalizeForComparison u := by
  cases u with
  | some v => rfl
  | none => simpa [jsDefOr] using h

theorem normalizeForComparisonStatus_jsDefOr (t u : Option StatusCode)
    (h : normalizeForComparisonStatus t = normalizeForComparisonStatus u) :
    normalizeForComparisonStatus (jsDefOr u t) = normalizeForComparisonStatus u := by
  cases u with
  | some v => rfl
  | none => simpa [jsDefOr] using h

/-- Merging a same-hop observation into the stored event does not change
which hops the stored event describes. -/
theorem eventsDescribeSameHop_merge (l a b : RedirectEvent)
    (hla : eventsDescribeSameHop (some l) (some a) = true) :
    eventsDescribeSameHop (some (mergeEventDetails l a)) (some b) =
      eventsDescribeSameHop (some a) (some b) := by
  rw [eventsDescribeSameHop_iff] at hla
  obtain ⟨h1, h2, h3, h4, h5⟩ := hla
  have e1 := normalizeForComparison_jsDefOr l.«from» a.«from» h1
  have e2 := normalizeForComparison_jsDefOr l.«to» a.«to» h2
  have e3 := normalizeForComparisonStatus_jsDefOr l.statusCode a.statusCode h3
  have e4 := normalizeForComparison_jsDefOr l.method a.method h4
  have e5 := normalizeForComparison_jsDefOr l.type a.type h5
  simp only [eventsDescribeSameHop, mergeEventDetails, e1, e2, e3, e4, e5]

/-- After appending an event, the chain ends with an event describing the
same hop as every event describing the same hop as the appended one. -/
theorem appendEventToChain_getLast (es : List RedirectEvent) (a b : RedirectEvent)
    (hab : eventsDescribeSameHop (some a) (some b) = true) :
    ∃ l, (appendEventToChain es a).getLast? = some l ∧
      eventsDescribeSameHop (some l) (some b) = true := by
  unfold appendEventToChain
  cases h : es.getLast? with
  | none => exact ⟨a, by simp [List.getLast?_concat], hab⟩
  | some last =>
    cases hs : eventsDescribeSameHop (some last) (some a) with
    | true =>
      refine ⟨mergeEventDetails last a, ?_, ?_⟩
      · simp [hs, List.getLast?_concat]
      · rw [eventsDescribeSameHop_merge last a b hs]
        exact hab
    | false => exact ⟨a, by simp [hs, List.getLast?_concat], hab⟩

/-! ### Claim theorems -/

/-- C1 counterexample: two hop events describing the identical transition
are both stored (as two list entries) when a different hop lands between
them, because appendEventToChain only merges into the last stored event;
the claim asserts exactly one stored event regardless of interleaving. -/
theorem appendEventToChain_interleaved_duplicate_cex :
    eventsDescribeSameHop (some cexHopA) (some cexHopB) = true ∧
    (appendEventToChain (appendEventToChain (appendEventToChain [] cexHopA) cexHopC) cexHopB).length = 3 ∧
    ((appendEventToChain (appendEventToChain (appendEventToChain [] cexHopA) cexHopC) cexHopB).filter
      (fun e => eventsDescribeSameHop (some e) (some cexHopB))).length = 2 := by
  decide

/-- Appending an event that describes the same hop as the stored last event
replaces the last event by the merge. -/
theorem appendEventToChain_merge_step (es1 : List RedirectEvent) (b l : RedirectEvent)
    (hl : es1.getLast? = some l) (hsame : eventsDescribeSameHop (some l) (some b) = true) :
    appendEventToChain es1 b = es1.dropLast ++ [mergeEventDetails l b] := by
  unfold appendEventToChain
  rw [hl]
  simp [hsame]

/-- C1 (amended): when the second of two events describing the identical
transition is appended while the first (or its merge) is still the last
stored event, exactly one event remains stored for that transition: the
chain keeps its length and its last entry becomes the merge of the stored
event with the later-arriving update (defined update fields overwrite,
undefined ones keep the stored values, by definition of mergeEventDetails). -/
theorem appendEventToChain_consecutive_same_hop (es : List RedirectEvent) (a b : RedirectEvent)
    (hab : eventsDescribeSameHop (some a) (some b) = true) :
    ∃ l, (appendEventToChain es a).getLast? = some l ∧
      appendEventToChain (appendEventToChain es a) b =
        (appendEventToChain es a).dropLast ++ [mergeEventDetails l b] ∧
      (appendEventToChain (appendEventToChain es a) b).length =
        (appendEventToChain es a).length := by
  obtain ⟨l, hl, hsame⟩ := appendEventToChain_getLast es a b hab
  have hstep := appendEventToChain_merge_step (appendEventToChain es a) b l hl hsame
  refine ⟨l, hl, hstep, ?_⟩
  rw [hstep]
  have hne : (appendEventToChain es a) ≠ [] := by
    intro hcontra
    rw [hcontra] at hl
    simp at hl
  have hpos : 0 < (appendEventToChain es a).length := List.length_pos.mpr hne
  simp only [List.length_append, List.length_dropLast, List.length_cons, List.length_nil]
  omega

theorem appendEventToChain_consecutive_same_hop_witness :
    eventsDescribeSameHop (some cexHopA) (some cexHopB) = true ∧
    ∃ l, (appendEventToChain [] cexHopA).getLast? = some l ∧
      appendEventToChain (appendEventToChain [] cexHopA) cexHopB =
        (appendEventToChain [] cexHopA).dropLast ++ [mergeEventDetails l cexHopB] ∧
      (appendEventToChain (appendEventToChain [] cexHopA) cexHopB).length =
        (appendEventToChain [] cexHopA).length :=
  ⟨by decide, appendEventToChain_consecutive_same_hop [] cexHopA cexHopB (by decide)⟩

/-- The truthiness guard on the destination URL never changes the noisy-URL
test: an absent or empty URL is never noisy. -/
theorem jsTruthy_and_isNoisyUrl (u : Option String) :
    (jsTruthyStrB u && isNoisyUrl u) = isNoisyUrl u := by
  cases u with
  | none => rfl
  | some s =>
    by_cases hs : s = ""
    · subst hs; rfl
    · simp [jsTruthyStrB, hs]

/-- C10: classifyEventLikeHop returns a fresh event whose noise flag is a
boolean that is true exactly when the destination URL is noisy, whose
noiseReason is always null, "cloudflare-challenge" or "analytics", and whose
remaining fields are copied unchanged from the input (the embedding is pure,
so the input itself is untouched). -/
theorem classifyEventLikeHop_spec (e : RedirectEvent) :
    (classifyEventLikeHop e).noise = some (isNoisyUrl e.«to») ∧
    ((classifyEventLikeHop e).noiseReason = some none ∨
      (classifyEventLikeHop e).noiseReason = some (some "cloudflare-challenge") ∨
      (classifyEventLikeHop e).noiseReason = some (some "analytics")) ∧
    ((classifyEventLikeHop e).noise = some true ↔ isNoisyUrl e.«to» = true) ∧
    (classifyEventLikeHop e).«from» = e.«from» ∧
    (classifyEventLikeHop e).«to» = e.«to» ∧
    (classifyEventLikeHop e).statusCode = e.statusCode ∧
    (classifyEventLikeHop e).method = e.method ∧
    (classifyEventLikeHop e).ip = e.ip ∧
    (classifyEventLikeHop e).type = e.type ∧
    (classifyEventLikeHop e).timestamp = e.timestamp ∧
    (classifyEventLikeHop e).timestampMs = e.timestampMs := by
  simp only [classifyEventLikeHop, jsTruthy_and_isNoisyUrl]
  cases hn : isNoisyUrl e.«to» with
  | false => simp [hn]
  | true =>
    cases hc : (jsIncludes (e.«to».getD "") "/cdn-cgi/" ||
        jsIncludes (e.«to».getD "") "challenges.cloudflare.com") with
    | false => simp [hn, hc]
    | true => simp [hn, hc]

/-- C6 counterexample: a zero-status redirect from http://a.example/p to
https://b.example/q (different host and different path) is still stored with
the synthetic "HSTS" status, although the claim requires the same path and
host for the reinterpretation. -/
theorem recordRedirectEventHop_hsts_cross_host_cex :
    (recordRedirectEventHop 0 cexRedirectDetails).statusCode = some (.str "HSTS") ∧
    samePathAndHost "http://a.example/p" "https://b.example/q" = false := by
  decide

/-- C6 (amended): the stored hop status is the synthetic "HSTS" exactly when
the redirect status code is 0, the source URL starts with http:// and the
redirect target starts with https:// (no same-path/same-host requirement);
in every other case the raw status code is stored. -/
theorem recordRedirectEventHop_hsts_iff (now : Int) (details : WebRedirectDetails) :
    (recordRedirectEventHop now details).statusCode =
      (if details.statusCode = 0 ∧ strStartsWith details.url "http://" = true ∧
          strStartsWith (details.redirectUrl.getD "") "https://" = true
       then some (StatusCode.str "HSTS")
       else some (StatusCode.num details.statusCode)) := by
  have hstatus : (recordRedirectEventHop now details).statusCode =
      some (if (details.statusCode == 0 && strStartsWith details.url "http://" &&
        (match details.redirectUrl with
         | some r => strStartsWith r "https://"
         | none => false)) then StatusCode.str "HSTS" else StatusCode.num details.statusCode) := by
    unfold recordRedirectEventHop
    exact (classifyEventLikeHop_spec _).2.2.2.2.2.1
  rw [hstatus]
  have hmatch : (match details.redirectUrl with
      | some r => strStartsWith r "https://"
      | none => false) = strStartsWith (details.redirectUrl.getD "") "https://" := by
    cases details.redirectUrl <;> rfl
  rw [hmatch]
  by_cases h1 : details.statusCode = 0 <;>
    by_cases h2 : strStartsWith details.url "http://" = true <;>
    by_cases h3 : strStartsWith (details.redirectUrl.getD "") "https://" = true <;>
    simp [h1, h2, h3]

theorem condList_length (b : Bool) (s : String) :
    (if b then [s] else ([] : List String)).length = b.toNat := by
  cases b <;> rfl

theorem condListP_length (p : Prop) [Decidable p] (s : String) :
    (if p then [s] else ([] : List String)).length = (decide p).toNat := by
  by_cases h : p <;> simp [h]

/-- The media-reason list is non-empty exactly when some media signal fires. -/
theorem classifyMediaReasons_pos_iff (record : RedirectRecord)
    (completionDetails : ChainCompletionDetails) :
    0 < (classifyMediaReasons record completionDetails).length ↔
      classifyMediaSignal record completionDetails = true := by
  simp only [classifyMediaReasons, classifyMediaSignal]
  cases h1 : record.events.any (fun e => e.type == some "media") <;>
    cases h2 : (match completionDetails.type with
      | some t => strLower t == "media"
      | none => false) <;>
    cases h3 : hasMediaExtension (some (record.finalUrl.getD "")) <;>
    cases h4 : isMediaContentType (some
      (match getHeaderValue completionDetails.responseHeaders "content-type" with
       | some s => strLower s
       | none => "")) <;>
    simp [h1, h2, h3, h4]

/-- The tracking-heuristics list has exactly as many entries as heuristics
fire. -/
theorem classifyTrackingHeuristics_length (record : RedirectRecord)
    (completionDetails : ChainCompletionDetails) :
    (classifyTrackingHeuristics record completionDetails).length =
      trackingHeuristicCount record completionDetails := by
  simp only [classifyTrackingHeuristics, trackingHeuristicCount, List.length_append,
    condList_length, condListP_length, Bool.decide_coe]

/-- C2: classifyRecord classifies likely-media exactly when a media signal
fires (so the result is then never likely-tracking), and otherwise classifies
likely-tracking exactly when at least two tracking heuristics fire, else
normal. -/
theorem classifyRecord_decision (record : RedirectRecord)
    (completionDetails : ChainCompletionDetails) :
    (classifyRecord record completionDetails).classification =
      (if classifyMediaSignal record completionDetails then Classification.likelyMedia
       else if 2 ≤ trackingHeuristicCount record completionDetails then Classification.likelyTracking
       else Classification.normal) := by
  simp only [classifyRecord]
  by_cases hm : 0 < (classifyMediaReasons record completionDetails).length
  · rw [if_pos hm, if_pos ((classifyMediaReasons_pos_iff record completionDetails).mp hm)]
  · rw [if_neg hm]
    have hM : ¬classifyMediaSignal record completionDetails = true := fun hc =>
      hm ((classifyMediaReasons_pos_iff record completionDetails).mpr hc)
    rw [if_neg hM]
    by_cases ht : 2 ≤ (classifyTrackingHeuristics record completionDetails).length
    · rw [if_pos ht,
        if_pos (classifyTrackingHeuristics_length record completionDetails ▸ ht)]
    · rw [if_neg ht,
        if_neg (classifyTrackingHeuristics_length record completionDetails ▸ ht)]

theorem filterMap_normalize (now : Int) (l : List RedirectEvent) :
    l.filterMap (fun e => normalizeEventForRecord now (some e)) =
      l.map (normalizeEventBody now) := by
  show List.filterMap (some ∘ normalizeEventBody now) l = _
  rw [List.filterMap_eq_map]

/-- The normalized-events list is the normalization of the kept side of the
noise partition of the sorted input. -/
theorem prepareEventsForRecord_normalizedEvents (now : Int) (events : List RedirectEvent) :
    (prepareEventsForRecord now events).normalizedEvents =
      (if ((jsSortBy eventTimeCmp events).filter (fun e => !(e.noise == some true))).length > 0 then
        (jsSortBy eventTimeCmp events).filter (fun e => !(e.noise == some true))
       else jsSortBy eventTimeCmp events).map (normalizeEventBody now) := by
  simp only [prepareEventsForRecord]
  split <;> simp_all [filterMap_normalize]

theorem prepareEventsForRecord_normalizedNoiseEvents (now : Int) (events : List RedirectEvent) :
    (prepareEventsForRecord now events).normalizedNoiseEvents =
      ((jsSortBy eventTimeCmp events).filter (fun e => e.noise == some true)).map
        (normalizeEventBody now) := by
  simp only [prepareEventsForRecord]
  simp [filterMap_normalize]

/-- C3: when at least one event is non-noisy, the normalized list is exactly
the normalization of the non-noisy events in sorted order (so it has zero
noisy hops) and the noise list holds the noisy ones; when every event is
noisy the normalized list is the whole sorted list; and allEventsNoisy holds
exactly when the normalized list is non-empty and every member is noisy. -/
theorem prepareEventsForRecord_partition (now : Int) (events : List RedirectEvent) :
    ((∃ e ∈ events, ¬e.noise = some true) →
      (prepareEventsForRecord now events).normalizedEvents =
        ((jsSortBy eventTimeCmp events).filter (fun e => !(e.noise == some true))).map
          (normalizeEventBody now) ∧
      (∀ e ∈ (prepareEventsForRecord now events).normalizedEvents, e.noise = some false) ∧
      (prepareEventsForRecord now events).normalizedNoiseEvents =
        ((jsSortBy eventTimeCmp events).filter (fun e => e.noise == some true)).map
          (normalizeEventBody now)) ∧
    ((∀ e ∈ events, e.noise = some true) →
      (prepareEventsForRecord now events).normalizedEvents =
        (jsSortBy eventTimeCmp events).map (normalizeEventBody now)) ∧
    ((prepareEventsForRecord now events).allEventsNoisy = true ↔
      (prepareEventsForRecord now events).normalizedEvents ≠ [] ∧
      ∀ e ∈ (prepareEventsForRecord now events).normalizedEvents, e.noise = some true) := by
  refine ⟨?_, ?_, ?_⟩
  · intro hex
    obtain ⟨e0, he0, hn0⟩ := hex
    have hmem : e0 ∈ (jsSortBy eventTimeCmp events).filter (fun e => !(e.noise == some true)) := by
      rw [List.mem_filter]
      exact ⟨mem_jsSortBy.mpr he0, by simpa using hn0⟩
    have hpos : 0 < ((jsSortBy eventTimeCmp events).filter
        (fun e => !(e.noise == some true))).length :=
      List.length_pos.mpr (List.ne_nil_of_mem hmem)
    rw [prepareEventsForRecord_normalizedEvents, if_pos hpos]
    refine ⟨rfl, ?_, prepareEventsForRecord_normalizedNoiseEvents now events⟩
    intro e he
    rw [List.mem_map] at he
    obtain ⟨e1, he1, rfl⟩ := he
    rw [List.mem_filter] at he1
    have : ¬e1.noise = some true := by simpa using he1.2
    simp [normalizeEventBody, this]
  · intro hall
    have hnil : (jsSortBy eventTimeCmp events).filter (fun e => !(e.noise == some true)) = [] := by
      rw [List.filter_eq_nil_iff]
      intro e he
      simp [hall e (mem_jsSortBy.mp he)]
    rw [prepareEventsForRecord_normalizedEvents, hnil]
    simp
  · simp only [prepareEventsForRecord]
    rw [Bool.and_eq_true]
    constructor
    · rintro ⟨h1, h2⟩
      rw [List.all_eq_true] at h2
      constructor
      · intro hc
        rw [hc] at h1
        simp at h1
      · intro e he
        simpa using h2 e he
    · rintro ⟨h1, h2⟩
      constructor
      · simpa using List.length_pos.mpr h1
      · rw [List.all_eq_true]
        intro e he
        simpa using h2 e he

/-- Re-normalizing a normalized event changes nothing (the timestamp string
is kept, the noise flag is already boolean, the reason already truthy or
absent). -/
theorem normalizeEventBody_idem (now now2 : Int) (e : RedirectEvent) :
    normalizeEventBody now2 (normalizeEventBody now e) = normalizeEventBody now e := by
  have hb : ∀ b : Bool, ((some b == some true) : Bool) = b := by decide
  simp only [normalizeEventBody, hb]
  cases hnr : e.noiseReason with
  | none => simp
  | some r =>
    cases r with
    | none => simp
    | some s =>
      by_cases hs : s = ""
      · simp [hs]
      · simp [hs]

theorem eventTimeCmp_none {a b : RedirectEvent} (ha : a.timestampMs = none)
    (hb : b.timestampMs = none) : eventTimeCmp a b = 0 := by
  simp [eventTimeCmp, ha, hb]

/-- C9: prepareEventsForRecord is idempotent — running it again on its own
normalizedEvents output returns the same normalizedEvents list. -/
theorem prepareEventsForRecord_idempotent (now now2 : Int) (events : List RedirectEvent) :
    (prepareEventsForRecord now2
        (prepareEventsForRecord now events).normalizedEvents).normalizedEvents =
      (prepareEventsForRecord now events).normalizedEvents := by
  set N := (prepareEventsForRecord now events).normalizedEvents with hN
  have hshape := prepareEventsForRecord_normalizedEvents now events
  have hts : ∀ e ∈ N, e.timestampMs = none := by
    intro e he
    rw [hN, hshape] at he
    rw [List.mem_map] at he
    obtain ⟨e1, _, rfl⟩ := he
    rfl
  have hsortN : jsSortBy eventTimeCmp N = N :=
    jsSortBy_of_all_zero _ N (fun x hx y hy => eventTimeCmp_none (hts x hx) (hts y hy))
  have hidem : N.map (normalizeEventBody now2) = N := by
    rw [hN, hshape, List.map_map]
    apply List.map_congr_left
    intro e _
    exact normalizeEventBody_idem now now2 e
  -- dichotomy on the noise flags of N
  by_cases hcase : ((jsSortBy eventTimeCmp events).filter
      (fun e => !(e.noise == some true))).length > 0
  · -- the kept side was the non-noisy events: every member of N is non-noisy
    have hfalse : ∀ e ∈ N, e.noise = some false := by
      intro e he
      rw [hN, hshape, if_pos hcase] at he
      rw [List.mem_map] at he
      obtain ⟨e1, he1, rfl⟩ := he
      rw [List.mem_filter] at he1
      have : ¬e1.noise = some true := by simpa using he1.2
      simp [normalizeEventBody, this]
    have hfilter : N.filter (fun e => !(e.noise == some true)) = N := by
      rw [List.filter_eq_self]
      intro e he
      simp [hfalse e he]
    rw [prepareEventsForRecord_normalizedEvents, hsortN, hfilter]
    by_cases hNnil : N = []
    · simp [hNnil]
    · rw [if_pos (List.length_pos.mpr hNnil)]
      exact hidem
  · -- everything was noisy (or empty): every member of N is noisy
    have htrue : ∀ e ∈ N, e.noise = some true := by
      intro e he
      rw [hN, hshape, if_neg hcase] at he
      rw [List.mem_map] at he
      obtain ⟨e1, he1, rfl⟩ := he
      have hnil : (jsSortBy eventTimeCmp events).filter (fun e => !(e.noise == some true)) = [] :=
        List.length_eq_zero.mp (by omega)
      have : e1.noise = some true := by
        by_contra hc
        have : e1 ∈ (jsSortBy eventTimeCmp events).filter (fun e => !(e.noise == some true)) := by
          rw [List.mem_filter]
          exact ⟨he1, by simpa using hc⟩
        rw [hnil] at this
        simp at this
      simp [normalizeEventBody, this]
    have hfilter : N.filter (fun e => !(e.noise == some true)) = [] := by
      rw [List.filter_eq_nil_iff]
      intro e he
      simp [htrue e he]
    rw [prepareEventsForRecord_normalizedEvents, hsortN, hfilter]
    simp only [List.length_nil, gt_iff_lt, lt_self_iff_false, if_false]
    exact hidem

theorem truthyList_eq_nil (u : Option String) :
    truthyList u = [] ↔ jsTruthyOpt u = none := by
  unfold truthyList
  cases jsTruthyOpt u <;> simp

theorem ne_empty_of_mem_truthyList {c : String} {u : Option String}
    (h : c ∈ truthyList u) : c ≠ "" := by
  unfold truthyList at h
  cases u with
  | none => simp [jsTruthyOpt] at h
  | some s =>
    by_cases hs : s = ""
    · simp [jsTruthyOpt, hs] at h
    · simp only [jsTruthyOpt] at h
      rw [if_neg (by simpa using hs)] at h
      simp only [List.mem_singleton] at h
      subst h
      exact hs

/-- Every pushed candidate is a non-empty string. -/
theorem resolveFinalUrlCandidates_ne_empty (record : RedirectRecord)
    (completionDetails : ChainCompletionDetails) (tabLastCommittedUrl : Int → Option String) :
    ∀ c ∈ resolveFinalUrlCandidates record completionDetails tabLastCommittedUrl, c ≠ "" := by
  intro c hc
  unfold resolveFinalUrlCandidates at hc
  simp only [List.mem_append] at hc
  rcases hc with ((((h | h) | h) | h) | h)
  · revert h
    split
    · exact fun h => ne_empty_of_mem_truthyList h
    · intro h; simp at h
  · revert h
    split
    · intro h
      rcases List.mem_append.mp h with h1 | h1
      · revert h1
        split
        · exact fun h1 => ne_empty_of_mem_truthyList h1
        · intro h1; simp at h1
      · revert h1
        split
        · exact fun h1 => ne_empty_of_mem_truthyList h1
        · intro h1; simp at h1
    · intro h; simp at h
  · revert h
    split
    · exact fun h => ne_empty_of_mem_truthyList h
    · intro h; simp at h
  · exact ne_empty_of_mem_truthyList h
  · exact ne_empty_of_mem_truthyList h

/-- When the deduplication result is empty, every input was empty. -/
theorem jsDedup_eq_nil {l : List String} (h : jsDedup l = []) : ∀ c ∈ l, c = "" := by
  suffices haux : ∀ (l acc : List String),
      (l.foldl (fun acc c => if c != "" && !acc.contains c then acc ++ [c] else acc) acc) = [] →
      acc = [] ∧ ∀ c ∈ l, c = "" by
    exact (haux l [] h).2
  intro l
  induction l with
  | nil => exact fun acc h => ⟨h, by simp⟩
  | cons x xs ih =>
    intro acc h
    simp only [List.foldl_cons] at h
    obtain ⟨hstep, hxs⟩ := ih _ h
    have hx : acc = [] ∧ x = "" := by
      by_cases hcond : (x != "" && !acc.contains x) = true
      · rw [if_pos hcond] at hstep
        exact absurd hstep (by simp)
      · rw [if_neg hcond] at hstep
        subst hstep
        refine ⟨rfl, ?_⟩
        simp only [Bool.and_eq_true, bne_iff_ne, ne_eq, Bool.not_eq_true] at hcond
        by_contra hxe
        exact hcond ⟨hxe, by simp⟩
    refine ⟨hx.1, ?_⟩
    intro c hcmem
    rcases List.mem_cons.mp hcmem with rfl | hcmem
    · exact hx.2
    · exact hxs c hcmem

/-- When the deduplicated candidate list is empty, the raw candidate list is
empty as well. -/
theorem resolveFinalUrlCandidates_nil_of_dedup_nil (record : RedirectRecord)
    (completionDetails : ChainCompletionDetails) (tabLastCommittedUrl : Int → Option String)
    (h : jsDedup (resolveFinalUrlCandidates record completionDetails tabLastCommittedUrl) = []) :
    resolveFinalUrlCandidates record completionDetails tabLastCommittedUrl = [] := by
  have hall := jsDedup_eq_nil h
  have hne := resolveFinalUrlCandidates_ne_empty record completionDetails tabLastCommittedUrl
  cases hc : resolveFinalUrlCandidates record completionDetails tabLastCommittedUrl with
  | nil => rfl
  | cons x xs =>
    exact absurd (hall x (by rw [hc]; simp)) (hne x (by rw [hc]; simp))

/-- With no candidates at all, every trailing fallback source of
resolveFinalUrl is falsy. -/
theorem resolveFinalUrl_fallbacks_none (record : RedirectRecord)
    (completionDetails : ChainCompletionDetails) (tabLastCommittedUrl : Int → Option String)
    (h : resolveFinalUrlCandidates record completionDetails tabLastCommittedUrl = []) :
    (if 0 ≤ record.tabId then jsTruthyOpt (tabLastCommittedUrl record.tabId) else none) = none ∧
    jsTruthyOpt record.initialUrl = none ∧
    jsTruthyOpt completionDetails.url = none := by
  unfold resolveFinalUrlCandidates at h
  simp only [List.append_eq_nil] at h
  obtain ⟨⟨⟨⟨h1, h2⟩, h3⟩, h4⟩, h5⟩ := h
  refine ⟨?_, (truthyList_eq_nil _).mp h5, (truthyList_eq_nil _).mp h4⟩
  by_cases ht : 0 ≤ record.tabId
  · rw [if_pos ht]
    rw [if_pos ht] at h3
    exact (truthyList_eq_nil _).mp h3
  · rw [if_neg ht]

/-- C7 counterexample: with candidates https://x.com/a.js (a script URL) and
ftp://files.example/a.txt (not script-extended, but not navigable either),
resolveFinalUrl returns the .js URL although an alternative candidate without
a script extension exists — refuting the claim as stated. -/
theorem resolveFinalUrl_js_cex :
    (jsDedup (resolveFinalUrlCandidates cexJsRecord cexJsCompletion (fun _ => none))).any
      candidatePathIsNonScript = true ∧
    resolveFinalUrl cexJsRecord cexJsCompletion (fun _ => none) = some "https://x.com/a.js" ∧
    strEndsWith "https://x.com/a.js" ".js" = true := by
  decide

/-- C7 (amended): resolveFinalUrl implements exactly the spec selection rule
(first navigable non-noisy candidate, else first navigable, else first
candidate, else null — the trailing source fallbacks are dead code), and
whenever some deduplicated candidate is a navigable browser URL the result is
a navigable browser URL, hence never one whose path ends in .js or .mjs. -/
theorem resolveFinalUrl_selection (record : RedirectRecord)
    (completionDetails : ChainCompletionDetails) (tabLastCommittedUrl : Int → Option String) :
    resolveFinalUrl record completionDetails tabLastCommittedUrl =
      resolveFinalUrlSpec
        (jsDedup (resolveFinalUrlCandidates record completionDetails tabLastCommittedUrl)) ∧
    ((jsDedup (resolveFinalUrlCandidates record completionDetails tabLastCommittedUrl)).any
        (fun c => isLikelyBrowserUrl (some c)) = true →
      ∃ u, resolveFinalUrl record completionDetails tabLastCommittedUrl = some u ∧
        isLikelyBrowserUrl (some u) = true) := by
  have heq : resolveFinalUrl record completionDetails tabLastCommittedUrl =
      resolveFinalUrlSpec
        (jsDedup (resolveFinalUrlCandidates record completionDetails tabLastCommittedUrl)) := by
    unfold resolveFinalUrl resolveFinalUrlSpec
    cases hf1 : (jsDedup (resolveFinalUrlCandidates record completionDetails
        tabLastCommittedUrl)).find?
        (fun c => isLikelyBrowserUrl (some c) && !isNoisyUrl (some c)) with
    | some preferred => simp [hf1]
    | none =>
      simp only [hf1]
      cases hf2 : (jsDedup (resolveFinalUrlCandidates record completionDetails
          tabLastCommittedUrl)).find? (fun c => isLikelyBrowserUrl (some c)) with
      | some fb => simp [hf2]
      | none =>
        simp only [hf2]
        cases hl : jsDedup (resolveFinalUrlCandidates record completionDetails
            tabLastCommittedUrl) with
        | cons c cs => simp
        | nil =>
          obtain ⟨g1, g2, g3⟩ := resolveFinalUrl_fallbacks_none record completionDetails
            tabLastCommittedUrl
            (resolveFinalUrlCandidates_nil_of_dedup_nil record completionDetails
              tabLastCommittedUrl hl)
          simp [g1, g2, g3]
  refine ⟨heq, ?_⟩
  intro hany
  rw [heq]
  unfold resolveFinalUrlSpec
  cases hf1 : (jsDedup (resolveFinalUrlCandidates record completionDetails
      tabLastCommittedUrl)).find?
      (fun c => isLikelyBrowserUrl (some c) && !isNoisyUrl (some c)) with
  | some preferred =>
    have hp := List.find?_some hf1
    rw [Bool.and_eq_true] at hp
    exact ⟨preferred, rfl, hp.1⟩
  | none =>
    have hex : ∃ c ∈ jsDedup (resolveFinalUrlCandidates record completionDetails
        tabLastCommittedUrl), isLikelyBrowserUrl (some c) = true := by
      simpa [List.any_eq_true] using hany
    obtain ⟨c0, hc0, hnav⟩ := hex
    cases hf2 : (jsDedup (resolveFinalUrlCandidates record completionDetails
        tabLastCommittedUrl)).find? (fun c => isLikelyBrowserUrl (some c)) with
    | some fb =>
      have hfb := List.find?_some hf2
      exact ⟨fb, rfl, hfb⟩
    | none =>
      exact absurd hnav (by simpa using List.find?_eq_none.mp hf2 c0 hc0)

theorem resolveFinalUrl_selection_witness :
    (jsDedup (resolveFinalUrlCandidates w7Record w7Completion (fun _ => none))).any
      (fun c => isLikelyBrowserUrl (some c)) = true ∧
    (resolveFinalUrl w7Record w7Completion (fun _ => none) =
      resolveFinalUrlSpec (jsDedup (resolveFinalUrlCandidates w7Record w7Completion (fun _ => none))) ∧
    ((jsDedup (resolveFinalUrlCandidates w7Record w7Completion (fun _ => none))).any
        (fun c => isLikelyBrowserUrl (some c)) = true →
      ∃ u, resolveFinalUrl w7Record w7Completion (fun _ => none) = some u ∧
        isLikelyBrowserUrl (some u) = true)) :=
  ⟨by decide, resolveFinalUrl_selection w7Record w7Completion (fun _ => none)⟩

/-- C4: a chain is persisted at most once. On an id absent from the chain
map, finalizeChainRecord is a no-op (no record written, no state mutated);
on a present id it always removes the chain, so a repeated call with the
same id is a no-op and cannot persist a second record. The hypothesis is
the map invariant maintained by createChain: the entry at a key is a chain
carrying that key as its id. -/
theorem cleanupChain_chainsById_none (st : BgState) (c : Chain) (k : String) (h : c.id = k) :
    (cleanupChain st c).chainsById k = none := by
  subst h
  simp [cleanupChain]

theorem finalizeChainRecord_noop (now : Int) (st : BgState) (chainId : String)
    (h : st.chainsById chainId = none) : finalizeChainRecord now st chainId = st := by
  unfold finalizeChainRecord
  rw [h]

theorem finalizeChainRecord_at_most_once (now now2 : Int) (st : BgState) (chainId : String)
    (hid : ∀ c, st.chainsById chainId = some c → c.id = chainId) :
    (st.chainsById chainId = none → finalizeChainRecord now st chainId = st) ∧
    (finalizeChainRecord now st chainId).chainsById chainId = none ∧
    finalizeChainRecord now2 (finalizeChainRecord now st chainId) chainId =
      finalizeChainRecord now st chainId := by
  cases hc : st.chainsById chainId with
  | none =>
    have hstep : finalizeChainRecord now st chainId = st := finalizeChainRecord_noop now st chainId hc
    refine ⟨fun _ => hstep, ?_, ?_⟩
    · rw [hstep]
      exact hc
    · rw [hstep]
      exact finalizeChainRecord_noop now2 st chainId hc
  | some chain =>
    have hcid : chain.id = chainId := hid chain hc
    have hnone : (finalizeChainRecord now st chainId).chainsById chainId = none := by
      unfold finalizeChainRecord
      split
      · next heq =>
        rw [hc] at heq
        exact Option.noConfusion heq
      · next c heq =>
        rw [hc] at heq
        have hce : chain = c := by injection heq
        subst hce
        unfold finalizeChainRecordBody
        split
        · exact cleanupChain_chainsById_none st _ chainId hcid
        · exact cleanupChain_chainsById_none _ _ chainId hcid
    refine ⟨fun hno => Option.noConfusion hno, hnone, ?_⟩
    exact finalizeChainRecord_noop now2 _ chainId hnone

theorem finalizeChainRecord_at_most_once_witness :
    (∀ c, w4State.chainsById "c1" = some c → c.id = "c1") ∧
    ((w4State.chainsById "c1" = none → finalizeChainRecord 0 w4State "c1" = w4State) ∧
     (finalizeChainRecord 0 w4State "c1").chainsById "c1" = none ∧
     finalizeChainRecord 0 (finalizeChainRecord 0 w4State "c1") "c1" =
       finalizeChainRecord 0 w4State "c1") := by
  have hid : ∀ c, w4State.chainsById "c1" = some c → c.id = "c1" := by
    intro c h
    simp only [w4State] at h
    rw [if_pos (by rfl)] at h
    injection h with h
    rw [← h]
    rfl
  exact ⟨hid, finalizeChainRecord_at_most_once 0 0 w4State "c1" hid⟩

/-- C5: while a chain awaits a client redirect, a completion whose resource
type is neither empty nor main_frame is ignored entirely: finalizeChain
returns the state unchanged, so pendingFinalDetails and all other chain and
index state are untouched. (A live awaiting chain always has events; the
resource type delivered by the webRequest API is a non-empty enum string.) -/
theorem finalizeChain_awaiting_non_main_frame_noop (now : Int) (st : BgState)
    (details : WebResponseDetails) (errorMessage : Option String)
    (cid : String) (chain : Chain)
    (hrt : st.requestToChain details.requestId = some cid)
    (hcb : st.chainsById cid = some chain)
    (hawait : chain.awaitingClientRedirect = true)
    (hevents : chain.events ≠ [])
    (htype0 : details.type ≠ "")
    (htype1 : details.type ≠ "main_frame") :
    finalizeChain now st details errorMessage = st := by
  have hg : getChainByRequestId st details.requestId = some (cid, chain) := by
    unfold getChainByRequestId
    rw [hrt]
    simp [hcb]
  unfold finalizeChain
  rw [hg]
  show finalizeChainBody now st details errorMessage cid chain = st
  unfold finalizeChainBody
  have hlen : ¬(chain.events.length == 0) = true := by
    simpa using fun hc => hevents (List.length_eq_zero.mp hc)
  rw [if_neg hlen]
  have hcond : (chain.awaitingClientRedirect && !(details.type == "") &&
      !(details.type == "main_frame")) = true := by
    simp [hawait, htype0, htype1]
  rw [if_pos hcond]

theorem finalizeChain_awaiting_non_main_frame_noop_witness :
    (w5State.requestToChain w5Details.requestId = some "c5" ∧
     w5State.chainsById "c5" = some w5Chain ∧
     w5Chain.awaitingClientRedirect = true ∧
     w5Chain.events ≠ [] ∧
     w5Details.type ≠ "" ∧
     w5Details.type ≠ "main_frame") ∧
    finalizeChain 0 w5State w5Details none = w5State :=
  ⟨⟨rfl, rfl, rfl, by decide, by decide, by decide⟩,
    finalizeChain_awaiting_non_main_frame_noop 0 w5State w5Details none "c5" w5Chain
      rfl rfl rfl (by decide) (by decide) (by decide)⟩

theorem foldl_append_mem {α β : Type} (f : β → List α) (l : List β) (init : List α) (x : α) :
    x ∈ l.foldl (fun acc e => acc ++ f e) init ↔ x ∈ init ∨ ∃ e ∈ l, x ∈ f e := by
  induction l generalizing init with
  | nil => simp
  | cons e es ih =>
    simp only [List.foldl_cons]
    rw [ih]
    simp only [List.mem_append, List.mem_cons]
    constructor
    · rintro ((h | h) | ⟨e1, he1, hx⟩)
      · exact Or.inl h
      · exact Or.inr ⟨e, Or.inl rfl, h⟩
      · exact Or.inr ⟨e1, Or.inr he1, hx⟩
    · rintro (h | ⟨e1, (rfl | he1), hx⟩)
      · exact Or.inl (Or.inl h)
      · exact Or.inl (Or.inr hx)
      · exact Or.inr ⟨e1, he1, hx⟩

theorem mem_buildCompletedGroups {buckets : List (Int × List RedirectRecord)} {g : SessionGroup} :
    g ∈ buildCompletedGroups buckets ↔ ∃ b ∈ buckets, g ∈ bucketGroups b := by
  simpa using foldl_append_mem bucketGroups buckets [] g

theorem mem_bucketGroups {bucket : Int × List RedirectRecord} {g : SessionGroup} :
    g ∈ bucketGroups bucket ↔
      ∃ cluster ∈ clusterByWindow
        (jsSortBy (fun a b => recordTimestamp a - recordTimestamp b) bucket.2),
        g ∈ partitionByAffinity cluster bucket.1 := by
  simpa using foldl_append_mem (fun cluster => partitionByAffinity cluster bucket.1)
    (clusterByWindow (jsSortBy (fun a b => recordTimestamp a - recordTimestamp b) bucket.2)) [] g

theorem clusterGo_members (rest : List RedirectRecord) :
    ∀ (last : RedirectRecord) (cur : List RedirectRecord) (c : List RedirectRecord),
      c ∈ clusterGo last cur rest → ∀ x ∈ c, x ∈ cur ∨ x ∈ rest := by
  induction rest with
  | nil =>
    intro last cur c hc x hx
    simp only [clusterGo, List.mem_singleton] at hc
    subst hc
    exact Or.inl hx
  | cons r rs ih =>
    intro last cur c hc x hx
    simp only [clusterGo] at hc
    split at hc
    · rcases ih r (cur ++ [r]) c hc x hx with h | h
      · rcases List.mem_append.mp h with h1 | h1
        · exact Or.inl h1
        · simp only [List.mem_singleton] at h1
          exact Or.inr (by simp [h1])
      · exact Or.inr (by simp [h])
    · rcases List.mem_cons.mp hc with rfl | hc1
      · exact Or.inl hx
      · rcases ih r [r] c hc1 x hx with h | h
        · simp only [List.mem_singleton] at h
          exact Or.inr (by simp [h])
        · exact Or.inr (by simp [h])

theorem clusterByWindow_members {l : List RedirectRecord} {c : List RedirectRecord}
    (hc : c ∈ clusterByWindow l) : ∀ x ∈ c, x ∈ l := by
  intro x hx
  cases l with
  | nil => simp [clusterByWindow] at hc
  | cons r rest =>
    simp only [clusterByWindow] at hc
    rcases clusterGo_members rest r [r] c hc x hx with h | h
    · simp only [List.mem_singleton] at h
      simp [h]
    · simp [h]

theorem selectPrimary_mem {rs : List RedirectRecord} {p : RedirectRecord}
    (h : selectPrimary rs = some p) : p ∈ rs := by
  unfold selectPrimary at h
  cases hs : jsSortBy primaryComparator rs with
  | nil => rw [hs] at h; simp at h
  | cons x xs =>
    rw [hs] at h
    simp only [List.head?_cons, Option.some.injEq] at h
    subst h
    exact mem_jsSortBy.mp (by rw [hs]; simp)

theorem partitionByAffinity_members :
    ∀ (n : Nat) (rs : List RedirectRecord) (tab : Int), rs.length ≤ n →
      ∀ g ∈ partitionByAffinity rs tab,
        g.primary ∈ rs ∧ ∀ s ∈ g.satellites, s ∈ rs := by
  intro n
  induction n with
  | zero =>
    intro rs tab hlen g hg
    have hnil : rs = [] := List.length_eq_zero.mp (Nat.le_zero.mp hlen)
    subst hnil
    simp [partitionByAffinity] at hg
  | succ n ih =>
    intro rs tab hlen g hg
    cases rs with
    | nil => simp [partitionByAffinity] at hg
    | cons r0 rest0 =>
      cases rest0 with
      | nil =>
        simp only [partitionByAffinity, List.mem_singleton] at hg
        subst hg
        exact ⟨by simp, by simp⟩
      | cons r1 rest1 =>
        rw [partitionByAffinity] at hg
        split at hg
        next => simp at hg
        next primary hsel =>
          split at hg
          case isFalse hmem => exact absurd (selectPrimary_mem hsel) hmem
          case isTrue hmem =>
          have hpmem : primary ∈ r0 :: r1 :: rest1 := hmem
          rcases List.mem_cons.mp hg with rfl | hrec
          · refine ⟨hpmem, ?_⟩
            intro s hs
            simp only at hs
            exact List.mem_of_mem_erase (List.mem_of_mem_filter hs)
          · have hlen2 : ((r0 :: r1 :: rest1).erase primary).length = (r0 :: r1 :: rest1).length - 1 :=
              List.length_erase_of_mem hpmem
            have hrecl : (((r0 :: r1 :: rest1).erase primary).filter
                (fun r => !hasHostOverlap (getChainHosts primary) (getChainHosts r))).length ≤ n := by
              have h1 := List.length_filter_le
                (fun r => !hasHostOverlap (getChainHosts primary) (getChainHosts r))
                ((r0 :: r1 :: rest1).erase primary)
              simp only [List.length_cons] at hlen hlen2
              omega
            obtain ⟨hp, hs⟩ := ih _ tab hrecl g hrec
            refine ⟨List.mem_of_mem_erase (List.mem_of_mem_filter hp), ?_⟩
            intro s hsm
            exact List.mem_of_mem_erase (List.mem_of_mem_filter (hs s hsm))

theorem sessionScan_singletons_grow (l : List RedirectRecord)
    (acc : List SessionGroup × List (Int × List RedirectRecord)) :
    acc.1 ⊆ (l.foldl sessionScanStep acc).1 := by
  induction l generalizing acc with
  | nil => exact fun x hx => hx
  | cons r rest ih =>
    intro x hx
    simp only [List.foldl_cons]
    refine ih (sessionScanStep acc r) ?_
    unfold sessionScanStep
    split
    · simp [hx]
    · split
      · simp [hx]
      · exact hx

/-- A pending or no-tab record contributes its singleton group to the scan. -/
theorem sessionScan_singleton_mem {records : List RedirectRecord} {r : RedirectRecord}
    (hr : r ∈ records) (hs : r.pending = some true ∨ r.tabId = -1 ∨ r.tabId = 0) :
    ({ tabId := r.tabId, primary := r, satellites := [] } : SessionGroup) ∈
      (sessionScan records).1 := by
  suffices haux : ∀ (l : List RedirectRecord) (acc : List SessionGroup × List (Int × List RedirectRecord)),
      r ∈ l →
      ({ tabId := r.tabId, primary := r, satellites := [] } : SessionGroup) ∈
        (l.foldl sessionScanStep acc).1 by
    exact haux records ([], []) hr
  intro l
  induction l with
  | nil => intro acc h; simp at h
  | cons x xs ih =>
    intro acc h
    rcases List.mem_cons.mp h with rfl | hmem
    · simp only [List.foldl_cons]
      refine sessionScan_singletons_grow xs (sessionScanStep acc r) ?_
      unfold sessionScanStep
      rcases hs with hp | ht
      · rw [if_pos (by simp [hp])]
        simp
      · split
        · simp
        · rw [if_pos (by rcases ht with h1 | h1 <;> simp [h1])]
          simp
    · simp only [List.foldl_cons]
      exact ih (sessionScanStep acc x) hmem

/-- Every group produced by the scan pass has no satellites. -/
theorem sessionScan_singletons_shape (records : List RedirectRecord) :
    ∀ g ∈ (sessionScan records).1, g.satellites = [] := by
  suffices haux : ∀ (l : List RedirectRecord) (acc : List SessionGroup × List (Int × List RedirectRecord)),
      (∀ g ∈ acc.1, g.satellites = []) → ∀ g ∈ (l.foldl sessionScanStep acc).1, g.satellites = [] by
    exact haux records ([], []) (by simp)
  intro l
  induction l with
  | nil => exact fun acc h => h
  | cons x xs ih =>
    intro acc hacc
    simp only [List.foldl_cons]
    refine ih (sessionScanStep acc x) ?_
    intro g hg
    unfold sessionScanStep at hg
    split at hg
    · rcases List.mem_append.mp hg with h | h
      · exact hacc g h
      · simp only [List.mem_singleton] at h; subst h; rfl
    · split at hg
      · rcases List.mem_append.mp hg with h | h
        · exact hacc g h
        · simp only [List.mem_singleton] at h; subst h; rfl
      · exact hacc g hg

theorem bucketsAdd_members {bs : List (Int × List RedirectRecord)} {t : Int}
    {r : RedirectRecord} {p : Int × List RedirectRecord} (hp : p ∈ bucketsAdd bs t r) :
    ∀ b ∈ p.2, (∃ q ∈ bs, b ∈ q.2) ∨ b = r := by
  intro b hb
  unfold bucketsAdd at hp
  split at hp
  · rw [List.mem_map] at hp
    obtain ⟨q, hq, hfq⟩ := hp
    by_cases hqt : (q.1 == t) = true
    · rw [if_pos hqt] at hfq
      subst hfq
      simp only at hb
      rcases List.mem_append.mp hb with h | h
      · exact Or.inl ⟨q, hq, h⟩
      · simp only [List.mem_singleton] at h
        exact Or.inr h
    · rw [if_neg hqt] at hfq
      subst hfq
      exact Or.inl ⟨q, hq, hb⟩
  · rcases List.mem_append.mp hp with h | h
    · exact Or.inl ⟨p, h, hb⟩
    · simp only [List.mem_singleton] at h
      subst h
      simp only [List.mem_singleton] at hb
      exact Or.inr hb

/-- Every record inside a scan bucket is a completed record with a real tab:
not pending and with a tab id other than 0 and -1. -/
theorem sessionScan_bucket_members {records : List RedirectRecord}
    {p : Int × List RedirectRecord} {b : RedirectRecord}
    (hp : p ∈ (sessionScan records).2) (hb : b ∈ p.2) :
    b.pending ≠ some true ∧ b.tabId ≠ -1 ∧ b.tabId ≠ 0 := by
  suffices haux : ∀ (l : List RedirectRecord) (acc : List SessionGroup × List (Int × List RedirectRecord)),
      (∀ q ∈ acc.2, ∀ x ∈ q.2, x.pending ≠ some true ∧ x.tabId ≠ -1 ∧ x.tabId ≠ 0) →
      ∀ q ∈ (l.foldl sessionScanStep acc).2, ∀ x ∈ q.2,
        x.pending ≠ some true ∧ x.tabId ≠ -1 ∧ x.tabId ≠ 0 by
    exact haux records ([], []) (by simp) p hp b hb
  intro l
  induction l with
  | nil => exact fun acc h => h
  | cons x xs ih =>
    intro acc hacc
    simp only [List.foldl_cons]
    refine ih (sessionScanStep acc x) ?_
    intro q hq y hy
    unfold sessionScanStep at hq
    split at hq
    · exact hacc q hq y hy
    · next hpen =>
      split at hq
      · exact hacc q hq y hy
      · next htab =>
        rcases bucketsAdd_members hq y hy with ⟨q1, hq1, hy1⟩ | rfl
        · exact hacc q1 hq1 y hy1
        · simp only [Bool.or_eq_true, not_or] at htab
          refine ⟨by simpa using hpen, ?_, ?_⟩
          · simpa using htab.1
          · simpa using htab.2

theorem jsSortBy_pair {α : Type} (cmp : α → α → Int) (a b : α) :
    jsSortBy cmp [a, b] = if cmp a b ≤ 0 then [a, b] else [b, a] := by
  by_cases h : cmp a b ≤ 0 <;> simp [jsSortBy, jsSortInsert, h]

theorem clusterByWindow_pair (a b : RedirectRecord) :
    clusterByWindow [a, b] =
      if recordTimestamp b - recordTimestamp a ≤ SESSION_WINDOW_MS then [[a, b]]
      else [[a], [b]] := by
  by_cases h : recordTimestamp b - recordTimestamp a ≤ SESSION_WINDOW_MS <;>
    simp [clusterByWindow, clusterGo, h]

theorem partitionByAffinity_nil (tab : Int) : partitionByAffinity [] tab = [] := by
  rw [partitionByAffinity]

theorem partitionByAffinity_single (x : RedirectRecord) (tab : Int) :
    partitionByAffinity [x] tab = [{ tabId := tab, primary := x, satellites := [] }] := by
  rw [partitionByAffinity]

theorem primaryComparator_self (x : RedirectRecord) : primaryComparator x x = 0 := by
  simp [primaryComparator]

theorem hasHostOverlap_symm (a b : List String) :
    hasHostOverlap a b = hasHostOverlap b a := by
  unfold hasHostOverlap
  by_cases h : ∃ x ∈ a, x ∈ b
  · obtain ⟨x, hxa, hxb⟩ := h
    have h1 : a.any (fun h => b.contains h) = true :=
      List.any_eq_true.mpr ⟨x, hxa, by simpa using hxb⟩
    have h2 : b.any (fun h => a.contains h) = true :=
      List.any_eq_true.mpr ⟨x, hxb, by simpa using hxa⟩
    rw [h1, h2]
  · have h1 : a.any (fun h => b.contains h) = false := by
      rw [List.any_eq_false]
      intro x hx hc
      exact h ⟨x, hx, by simpa using hc⟩
    have h2 : b.any (fun h => a.contains h) = false := by
      rw [List.any_eq_false]
      intro x hx hc
      exact h ⟨x, by simpa using hc, hx⟩
    rw [h1, h2]

theorem partitionByAffinity_pair (a b : RedirectRecord) (tab : Int)
    (hov : hasHostOverlap (getChainHosts a) (getChainHosts b) = true)
    (hovb : hasHostOverlap (getChainHosts b) (getChainHosts a) = true) :
    partitionByAffinity [a, b] tab =
      if primaryComparator a b ≤ 0 then
        [{ tabId := tab, primary := a, satellites := [b] }]
      else [{ tabId := tab, primary := b, satellites := [a] }] := by
  have hsel : selectPrimary [a, b] = some (if primaryComparator a b ≤ 0 then a else b) := by
    unfold selectPrimary
    rw [jsSortBy_pair]
    by_cases h : primaryComparator a b ≤ 0 <;> simp [h]
  rw [partitionByAffinity]
  by_cases h : primaryComparator a b ≤ 0
  · rw [if_pos h] at hsel
    rw [if_pos h]
    simp only [hsel]
    split
    · next hmem =>
      simp [List.erase_cons_head, hov, partitionByAffinity_nil]
    · next hmem => exact absurd (by simp) hmem
  · rw [if_neg h] at hsel
    rw [if_neg h]
    have hne : a ≠ b := by
      intro he
      subst he
      exact h (by rw [primaryComparator_self])
    have hab : (a == b) = false := beq_eq_false_iff_ne.mpr hne
    simp only [hsel]
    split
    · next hmem =>
      simp [List.erase_cons, hab, hovb, partitionByAffinity_nil]
    · next hmem => exact absurd (by simp) hmem

theorem sessionScanStep_bucket (acc : List SessionGroup × List (Int × List RedirectRecord))
    (r : RedirectRecord) (hp : (r.pending == some true) = false)
    (ht : (r.tabId == -1 || r.tabId == 0) = false) :
    sessionScanStep acc r = (acc.1, bucketsAdd acc.2 r.tabId r) := by
  simp [sessionScanStep, hp, ht]

theorem sessionScan_pair_bucket (r1 r2 : RedirectRecord) (t : Int)
    (hp1 : (r1.pending == some true) = false) (hp2 : (r2.pending == some true) = false)
    (ht1 : r1.tabId = t) (ht2 : r2.tabId = t) (htm1 : t ≠ -1) (htm0 : t ≠ 0) :
    sessionScan [r1, r2] = ([], [(t, [r1, r2])]) := by
  have hb1 : (r1.tabId == -1 || r1.tabId == 0) = false := by
    rw [ht1]
    simp [htm1, htm0]
  have hb2 : (r2.tabId == -1 || r2.tabId == 0) = false := by
    rw [ht2]
    simp [htm1, htm0]
  simp only [sessionScan, List.foldl_cons, List.foldl_nil]
  rw [sessionScanStep_bucket _ _ hp1 hb1, sessionScanStep_bucket _ _ hp2 hb2]
  simp [bucketsAdd, ht1, ht2]

/-- Core of C8 part two: two completed same-tab records whose sorted order is
[a, b], within the session window and sharing a host, form one group with the
comparator-preferred record as primary and the other as satellite. -/
theorem buildSessionGroups_pair_grouped (x y a b : RedirectRecord) (t : Int)
    (hpx : (x.pending == some true) = false) (hpy : (y.pending == some true) = false)
    (htx : x.tabId = t) (hty : y.tabId = t) (htm1 : t ≠ -1) (htm0 : t ≠ 0)
    (hsorted : jsSortBy (fun p q => recordTimestamp p - recordTimestamp q) [x, y] = [a, b])
    (hwin : recordTimestamp b - recordTimestamp a ≤ SESSION_WINDOW_MS)
    (hov : hasHostOverlap (getChainHosts a) (getChainHosts b) = true)
    (hovb : hasHostOverlap (getChainHosts b) (getChainHosts a) = true) :
    buildSessionGroups [x, y] true =
      if primaryComparator a b ≤ 0 then
        [{ tabId := t, primary := a, satellites := [b] }]
      else [{ tabId := t, primary := b, satellites := [a] }] := by
  have hscan := sessionScan_pair_bucket x y t hpx hpy htx hty htm1 htm0
  have hbucket : bucketGroups (t, [x, y]) =
      if primaryComparator a b ≤ 0 then
        [{ tabId := t, primary := a, satellites := [b] }]
      else [{ tabId := t, primary := b, satellites := [a] }] := by
    unfold bucketGroups
    rw [show ((t, [x, y]) : Int × List RedirectRecord).2 = [x, y] from rfl,
      show ((t, [x, y]) : Int × List RedirectRecord).1 = t from rfl]
    rw [hsorted, clusterByWindow_pair, if_pos hwin]
    simp only [List.foldl_cons, List.foldl_nil, List.nil_append]
    exact partitionByAffinity_pair a b t hov hovb
  simp only [buildSessionGroups, hscan, if_true]
  simp only [buildCompletedGroups, List.foldl_cons, List.foldl_nil, List.nil_append, hbucket]
  by_cases hpc : primaryComparator a b ≤ 0 <;> simp [hpc, jsSortBy, jsSortInsert]

/-- Core of C8 part three: two completed same-tab records whose sorted order
is [a, b] but whose initiation gap exceeds the session window end up in two
satellite-free groups. -/
theorem buildSessionGroups_pair_split (x y a b : RedirectRecord) (t : Int) (sn : Bool)
    (hpx : (x.pending == some true) = false) (hpy : (y.pending == some true) = false)
    (htx : x.tabId = t) (hty : y.tabId = t) (htm1 : t ≠ -1) (htm0 : t ≠ 0)
    (hsorted : jsSortBy (fun p q => recordTimestamp p - recordTimestamp q) [x, y] = [a, b])
    (hwin : ¬(recordTimestamp b - recordTimestamp a ≤ SESSION_WINDOW_MS)) :
    ∀ g ∈ buildSessionGroups [x, y] sn,
      g = { tabId := t, primary := a, satellites := [] } ∨
      g = { tabId := t, primary := b, satellites := [] } := by
  have hscan := sessionScan_pair_bucket x y t hpx hpy htx hty htm1 htm0
  have hbucket : bucketGroups (t, [x, y]) =
      [{ tabId := t, primary := a, satellites := [] },
       { tabId := t, primary := b, satellites := [] }] := by
    unfold bucketGroups
    rw [show ((t, [x, y]) : Int × List RedirectRecord).2 = [x, y] from rfl,
      show ((t, [x, y]) : Int × List RedirectRecord).1 = t from rfl]
    rw [hsorted, clusterByWindow_pair, if_neg hwin]
    simp only [List.foldl_cons, List.foldl_nil, List.nil_append]
    rw [partitionByAffinity_single, partitionByAffinity_single]
    rfl
  intro g hg
  simp only [buildSessionGroups, hscan] at hg
  simp only [buildCompletedGroups, List.foldl_cons, List.foldl_nil, List.nil_append,
    hbucket] at hg
  rw [mem_jsSortBy] at hg
  cases sn with
  | true =>
    simp only [if_true, List.nil_append, List.mem_cons, List.not_mem_nil, or_false] at hg
    exact hg
  | false =>
    simp only [Bool.false_eq_true, if_false, List.filter_nil, List.nil_append] at hg
    rw [List.mem_filterMap] at hg
    obtain ⟨g1, hg1, hf⟩ := hg
    rcases List.mem_cons.mp hg1 with rfl | hg1b
    · split at hf
      · exact absurd hf (by simp)
      · simp only [Option.some.injEq] at hf
        subst hf
        exact Or.inl rfl
    · simp only [List.mem_singleton] at hg1b
      subst hg1b
      split at hf
      · exact absurd hf (by simp)
      · simp only [Option.some.injEq] at hf
        subst hf
        exact Or.inr rfl

/-- Every satellite of a completed group built from the scan buckets is a
non-pending record with a real tab id. -/
theorem completedGroups_satellite_members {records : List RedirectRecord}
    {g : SessionGroup} (hg : g ∈ buildCompletedGroups (sessionScan records).2) :
    ∀ s ∈ g.satellites, s.pending ≠ some true ∧ s.tabId ≠ -1 ∧ s.tabId ≠ 0 := by
  intro s hs
  rw [mem_buildCompletedGroups] at hg
  obtain ⟨bucket, hbucket, hgb⟩ := hg
  rw [mem_bucketGroups] at hgb
  obtain ⟨cluster, hcluster, hgp⟩ := hgb
  have hmem :=
    (partitionByAffinity_members cluster.length cluster bucket.1 (le_refl _) g hgp).2 s hs
  have hcl := clusterByWindow_members hcluster s hmem
  exact sessionScan_bucket_members hbucket (mem_jsSortBy.mp hcl)

/-- C8: every pending or no-tab record visible under the noise filter is a
satellite-free singleton group; satellites are always completed real-tab
records; two completed same-tab records within the 60s window sharing a host
form one primary/satellite group; records more than 60s apart never share a
group. -/
theorem buildSessionGroups_spec :
    (∀ (records : List RedirectRecord) (showingNoise : Bool) (r : RedirectRecord),
        r ∈ records →
        (r.pending = some true ∨ r.tabId = 0 ∨ r.tabId = -1) →
        (showingNoise = true ∨ isNoise r = false) →
        ({ tabId := r.tabId, primary := r, satellites := [] } : SessionGroup) ∈
          buildSessionGroups records showingNoise) ∧
    (∀ (records : List RedirectRecord) (showingNoise : Bool) (g : SessionGroup),
        g ∈ buildSessionGroups records showingNoise →
        ∀ s ∈ g.satellites, s.pending ≠ some true ∧ s.tabId ≠ 0 ∧ s.tabId ≠ -1) ∧
    (∀ (r1 r2 : RedirectRecord) (t : Int),
        r1.pending ≠ some true → r2.pending ≠ some true →
        r1.tabId = t → r2.tabId = t → 0 < t →
        recordTimestamp r1 - recordTimestamp r2 ≤ SESSION_WINDOW_MS →
        recordTimestamp r2 - recordTimestamp r1 ≤ SESSION_WINDOW_MS →
        hasHostOverlap (getChainHosts r1) (getChainHosts r2) = true →
        ∃ p s, ((p = r1 ∧ s = r2) ∨ (p = r2 ∧ s = r1)) ∧
          buildSessionGroups [r1, r2] true =
            [{ tabId := t, primary := p, satellites := [s] }]) ∧
    (∀ (r1 r2 : RedirectRecord) (t : Int) (sn : Bool),
        r1.pending ≠ some true → r2.pending ≠ some true →
        r1.tabId = t → r2.tabId = t → 0 < t →
        (SESSION_WINDOW_MS < recordTimestamp r1 - recordTimestamp r2 ∨
         SESSION_WINDOW_MS < recordTimestamp r2 - recordTimestamp r1) →
        ∀ g ∈ buildSessionGroups [r1, r2] sn,
          ¬((g.primary = r1 ∨ r1 ∈ g.satellites) ∧
            (g.primary = r2 ∨ r2 ∈ g.satellites))) := by
  refine ⟨?_, ?_, ?_, ?_⟩
  · intro records sn r hr hsing hvis
    have hmem := sessionScan_singleton_mem hr
      (by rcases hsing with h | h | h
          exacts [Or.inl h, Or.inr (Or.inr h), Or.inr (Or.inl h)])
    simp only [buildSessionGroups]
    rw [mem_jsSortBy]
    cases sn with
    | true =>
      simp only [if_true]
      exact List.mem_append_left _ hmem
    | false =>
      rcases hvis with h | hnoise
      · exact absurd h (by simp)
      · simp only [Bool.false_eq_true, if_false]
        refine List.mem_append_left _ ?_
        rw [List.mem_filter]
        exact ⟨hmem, by simp [hnoise]⟩
  · intro records sn g hg s hs
    simp only [buildSessionGroups] at hg
    rw [mem_jsSortBy] at hg
    cases sn with
    | true =>
      simp only [if_true] at hg
      rcases List.mem_append.mp hg with h | h
      · rw [sessionScan_singletons_shape records g h] at hs
        simp at hs
      · obtain ⟨h1, h2, h3⟩ := completedGroups_satellite_members h s hs
        exact ⟨h1, h3, h2⟩
    | false =>
      simp only [Bool.false_eq_true, if_false] at hg
      rcases List.mem_append.mp hg with h | h
      · rw [sessionScan_singletons_shape records g (List.mem_of_mem_filter h)] at hs
        simp at hs
      · rw [List.mem_filterMap] at h
        obtain ⟨g1, hg1, hf⟩ := h
        split at hf
        · exact absurd hf (by simp)
        · simp only [Option.some.injEq] at hf
          subst hf
          simp only [List.mem_filter] at hs
          obtain ⟨h1, h2, h3⟩ := completedGroups_satellite_members hg1 s hs.1
          exact ⟨h1, h3, h2⟩
  · intro r1 r2 t hp1 hp2 ht1 ht2 htpos hw1 hw2 hov
    have hpb1 : (r1.pending == some true) = false := beq_eq_false_iff_ne.mpr hp1
    have hpb2 : (r2.pending == some true) = false := beq_eq_false_iff_ne.mpr hp2
    have htm1 : t ≠ -1 := by omega
    have htm0 : t ≠ 0 := by omega
    have hovb : hasHostOverlap (getChainHosts r2) (getChainHosts r1) = true := by
      rw [hasHostOverlap_symm]
      exact hov
    by_cases hord : recordTimestamp r1 - recordTimestamp r2 ≤ 0
    · have hsorted : jsSortBy (fun p q => recordTimestamp p - recordTimestamp q) [r1, r2] =
          [r1, r2] := by
        rw [jsSortBy_pair, if_pos hord]
      have hmain := buildSessionGroups_pair_grouped r1 r2 r1 r2 t hpb1 hpb2 ht1 ht2
        htm1 htm0 hsorted hw2 hov hovb
      by_cases hpc : primaryComparator r1 r2 ≤ 0
      · exact ⟨r1, r2, Or.inl ⟨rfl, rfl⟩, by rw [hmain, if_pos hpc]⟩
      · exact ⟨r2, r1, Or.inr ⟨rfl, rfl⟩, by rw [hmain, if_neg hpc]⟩
    · have hsorted : jsSortBy (fun p q => recordTimestamp p - recordTimestamp q) [r1, r2] =
          [r2, r1] := by
        rw [jsSortBy_pair, if_neg hord]
      have hmain := buildSessionGroups_pair_grouped r1 r2 r2 r1 t hpb1 hpb2 ht1 ht2
        htm1 htm0 hsorted hw1 hovb hov
      by_cases hpc : primaryComparator r2 r1 ≤ 0
      · exact ⟨r2, r1, Or.inr ⟨rfl, rfl⟩, by rw [hmain, if_pos hpc]⟩
      · exact ⟨r1, r2, Or.inl ⟨rfl, rfl⟩, by rw [hmain, if_neg hpc]⟩
  · intro r1 r2 t sn hp1 hp2 ht1 ht2 htpos hgap
    have h60 : SESSION_WINDOW_MS = 60000 := rfl
    have hne : r1 ≠ r2 := by
      intro h
      subst h
      rcases hgap with h | h <;> omega
    have hpb1 : (r1.pending == some true) = false := beq_eq_false_iff_ne.mpr hp1
    have hpb2 : (r2.pending == some true) = false := beq_eq_false_iff_ne.mpr hp2
    have htm1 : t ≠ -1 := by omega
    have htm0 : t ≠ 0 := by omega
    by_cases hord : recordTimestamp r1 - recordTimestamp r2 ≤ 0
    · have hsorted : jsSortBy (fun p q => recordTimestamp p - recordTimestamp q) [r1, r2] =
          [r1, r2] := by
        rw [jsSortBy_pair, if_pos hord]
      have hwin : ¬(recordTimestamp r2 - recordTimestamp r1 ≤ SESSION_WINDOW_MS) := by
        rcases hgap with h | h <;> omega
      have hsplit := buildSessionGroups_pair_split r1 r2 r1 r2 t sn hpb1 hpb2 ht1 ht2
        htm1 htm0 hsorted hwin
      intro g hg
      rintro ⟨hg1, hg2⟩
      rcases hsplit g hg with h | h <;> subst h
      · rcases hg2 with h2 | h2
        · exact hne h2
        · simp at h2
      · rcases hg1 with h1 | h1
        · exact hne h1.symm
        · simp at h1
    · have hsorted : jsSortBy (fun p q => recordTimestamp p - recordTimestamp q) [r1, r2] =
          [r2, r1] := by
        rw [jsSortBy_pair, if_neg hord]
      have hwin : ¬(recordTimestamp r1 - recordTimestamp r2 ≤ SESSION_WINDOW_MS) := by
        rcases hgap with h | h <;> omega
      have hsplit := buildSessionGroups_pair_split r1 r2 r2 r1 t sn hpb1 hpb2 ht1 ht2
        htm1 htm0 hsorted hwin
      intro g hg
      rintro ⟨hg1, hg2⟩
      rcases hsplit g hg with h | h <;> subst h
      · rcases hg1 with h1 | h1
        · exact hne h1.symm
        · simp at h1
      · rcases hg2 with h2 | h2
        · exact hne h2
        · simp at h2

/-- C8 counterexample: with showingNoise = false, a pending record classified
as noise is dropped entirely instead of becoming its own singleton group. -/
theorem buildSessionGroups_noise_pending_dropped_cex :
    cexNoisePendingRecord.pending = some true ∧
    buildSessionGroups [cexNoisePendingRecord] false = [] := by decide

/-- C8 witness: two completed tab-5 records 30s apart on the shared host
example.com form one primary/satellite group. -/
theorem buildSessionGroups_spec_witness :
    w8RecA.pending ≠ some true ∧ w8RecB.pending ≠ some true ∧
    w8RecA.tabId = 5 ∧ w8RecB.tabId = 5 ∧ (0 : Int) < 5 ∧
    recordTimestamp w8RecA - recordTimestamp w8RecB ≤ SESSION_WINDOW_MS ∧
    recordTimestamp w8RecB - recordTimestamp w8RecA ≤ SESSION_WINDOW_MS ∧
    hasHostOverlap (getChainHosts w8RecA) (getChainHosts w8RecB) = true ∧
    (∃ p s, ((p = w8RecA ∧ s = w8RecB) ∨ (p = w8RecB ∧ s = w8RecA)) ∧
      buildSessionGroups [w8RecA, w8RecB] true =
        [{ tabId := 5, primary := p, satellites := [s] }]) :=
  ⟨by decide, by decide, rfl, rfl, by decide, by decide, by decide, by decide,
    buildSessionGroups_spec.2.2.1 w8RecA w8RecB 5 (by decide) (by decide) rfl rfl
      (by decide) (by decide) (by decide) (by decide)⟩

end RedirectInspector
